import Mathlib

/-
  Verification of the shipper traffic controller model.

  Shallow embedding of:
  - src/pkg/controller/traffic/pod_label_shifter.go  (pod label shifter)
  - src/unnamed/part_000                             (release condition utilities
                                                      and target object resolver)

  Conventions of the embedding:
  - Go maps are association lists; lookups take the first binding, which is
    unique in every state the Go code can build.
  - Go uint32 arithmetic is Nat arithmetic reduced modulo 2^32 at every
    operation that Go performs on uint32 values.
  - Go float64 arithmetic on the quantities involved here is modelled by exact
    rational arithmetic (ℚ), with floor/ceiling/truncation made explicit.
  - Client I/O (pod patch submission, listing) is modelled as the pure effect
    on the data; I/O failures are external faults outside the model.
-/

set_option maxHeartbeats 1000000

namespace Shipper

/-- Labels of a Kubernetes object, as an association list from key to value.
Go's map has unique keys; lookups take the first binding. -/
abbrev Labels := List (String × String)

/-- Modelled from the spec: label vocabulary of section 6 ("Labels read: app,
release, lb; labels written: traffic-status"); the constants live in
pkg/apis/shipper/v1, which is not under src/. The claims do not depend on the
literal values. -/
def AppLabel : String := "app"

/-- Modelled from the spec: the release label key. -/
def ReleaseLabel : String := "release"

/-- Modelled from the spec: the load balancer label key. -/
def LBLabel : String := "lb"

/-- Modelled from the spec: value of the lb label that selects the production
load balancer service. -/
def LBForProduction : String := "production"

/-- Modelled from the spec: the traffic-status label key written on pods. -/
def PodTrafficStatusLabel : String := "traffic-status"

/-- Modelled from the spec: traffic-status value for pods receiving traffic. -/
def Enabled : String := "enabled"

/-- Modelled from the spec: traffic-status value for idle pods. -/
def Disabled : String := "disabled"

/-- JSON patch op name "add". -/
def AddOp : String := "add"

/-- JSON patch op name "replace". -/
def ReplaceOp : String := "replace"

/-- Modulus of Go's uint32 type. -/
def u32Mod : Nat := 4294967296

/-- Addition of two Go uint32 values: wraps modulo 2^32. -/
def u32add (a b : Nat) : Nat := (a + b) % u32Mod

/-- Function round (pod_label_shifter.go lines 311-316). Go's int(x) conversion
truncates toward zero: on the negative branch the argument num - 0.5 is
negative and truncation is the ceiling; on the non-negative branch the
argument num + 0.5 is non-negative and truncation is the floor. -/
def round (num : ℚ) : ℤ :=
  if num < 0 then ⌈num - 1/2⌉ else ⌊num + 1/2⌋

/-- Percentage of the entire fleet that a release's pods should represent
(pod_label_shifter.go lines 244-249). -/
def targetPercent (releaseWeight totalWeight : Nat) : ℚ :=
  if totalWeight = 0 then 0 else (releaseWeight : ℚ) / (totalWeight : ℚ) * 100

/-- Modelled from the spec: replicas.CalculateDesiredReplicaCount from
pkg/util/replicas, which is not under src/. Spec section 4.B: "Compute a
target count: ceil(totalPods × weight / totalWeight)", that is, the ceiling of
totalReplicaCount × percentage / 100, returned as an unsigned integer. -/
def CalculateDesiredReplicaCount (totalReplicaCount : Nat) (percentage : ℚ) : Nat :=
  (⌈(totalReplicaCount : ℚ) * percentage / 100⌉).toNat

/-- Function calculateReleasePodTarget (pod_label_shifter.go lines 241-260):
the desired pod count rounded up, clamped above by the number of pods the
release actually has. -/
def calculateReleasePodTarget (releasePods : Nat) (releaseWeight : Nat) (totalPods : Nat) (totalWeight : Nat) : Nat :=
  min releasePods (CalculateDesiredReplicaCount totalPods (targetPercent releaseWeight totalWeight))

/-- Achieved weight report (pod_label_shifter.go lines 155-157 and 186-188):
uint32(round(finalTrafficPods / totalPods × totalWeight)). In ℚ a division by
zero yields 0. -/
def achievedWeight (finalTrafficPods totalPods totalWeight : Nat) : Nat :=
  (round ((finalTrafficPods : ℚ) / (totalPods : ℚ) * (totalWeight : ℚ))).toNat % u32Mod

/-- A pod: its name and its labels. -/
structure Pod where
  name : String
  labels : Labels
deriving DecidableEq

/-- Function getsTraffic (pod_label_shifter.go lines 195-203): a pod gets
traffic iff for every key/value pair of the service's traffic selector the pod
carries that label with that value. -/
def getsTraffic (pod : Pod) (trafficSelectors : Labels) : Bool :=
  trafficSelectors.all fun kv => pod.labels.lookup kv.1 == some kv.2

/-- Type PatchOperation (pod_label_shifter.go lines 208-212). -/
structure PatchOperation where
  op : String
  path : String
  value : String
deriving DecidableEq

/-- Function patchPodTrafficStatusLabel (pod_label_shifter.go lines 216-239):
the one-element JSON patch list for a pod. The json.Marshal of this list is
plain serialisation and is kept structural. -/
def patchPodTrafficStatusLabel (pod : Pod) (value : String) : List PatchOperation :=
  let op := if (pod.labels.lookup PodTrafficStatusLabel).isSome then ReplaceOp else AddOp
  [⟨op, "/metadata/labels/" ++ PodTrafficStatusLabel, value⟩]

/-- A patch submitted to the pods client: target pod name plus the JSON patch
operations (pod_label_shifter.go line 144 and 175). -/
structure PodPatch where
  podName : String
  ops : List PatchOperation
deriving DecidableEq

/-- Patches emitted by the excess loop (pod_label_shifter.go lines 139-154):
among the given pods, exactly those whose traffic-status label is absent or
Enabled are patched to Disabled. Patch submission is modelled as succeeding. -/
def disablePatches (pods : List Pod) : List PodPatch :=
  pods.filterMap fun pod =>
    match pod.labels.lookup PodTrafficStatusLabel with
    | none => some ⟨pod.name, patchPodTrafficStatusLabel pod Disabled⟩
    | some value =>
      if value = Enabled then some ⟨pod.name, patchPodTrafficStatusLabel pod Disabled⟩
      else none

/-- Patches emitted by the missing loop (pod_label_shifter.go lines 170-185):
among the given pods, exactly those whose traffic-status label is absent or
Disabled are patched to Enabled. Patch submission is modelled as succeeding. -/
def enablePatches (pods : List Pod) : List PodPatch :=
  pods.filterMap fun pod =>
    match pod.labels.lookup PodTrafficStatusLabel with
    | none => some ⟨pod.name, patchPodTrafficStatusLabel pod Enabled⟩
    | some value =>
      if value = Disabled then some ⟨pod.name, patchPodTrafficStatusLabel pod Enabled⟩
      else none

/-- Per-pod errors collected by SyncCluster. With patch submission modelled as
succeeding, only NewTargetClusterMathError (pod_label_shifter.go line 166) can
arise. -/
inductive SyncError where
  | math (release : String) (idlePods missing : Nat)
deriving DecidableEq

/-- Result of one SyncCluster run: the achieved-weight map (as the list of
entries written, in loop order), the pod patches submitted, and the collected
per-pod errors. -/
structure SyncOutcome where
  achievedWeights : List (String × Nat)
  patches : List PodPatch
  errors : List SyncError
deriving DecidableEq

/-- Pods of the namespace carrying the given release label
(pod_label_shifter.go lines 110-111). -/
def releasePodsOf (allPods : List Pod) (release : String) : List Pod :=
  allPods.filter fun pod => pod.labels.lookup ReleaseLabel == some release

/-- Traffic pods of a release: those whose labels are a superset of the
traffic selector (pod_label_shifter.go lines 120-128). -/
def trafficPodsOf (allPods : List Pod) (trafficSelector : Labels) (release : String) : List Pod :=
  (releasePodsOf allPods release).filter fun pod => getsTraffic pod trafficSelector

/-- Idle pods of a release: the rest of its pods (pod_label_shifter.go
lines 120-128). -/
def idlePodsOf (allPods : List Pod) (trafficSelector : Labels) (release : String) : List Pod :=
  (releasePodsOf allPods release).filter fun pod => !(getsTraffic pod trafficSelector)

/-- Main loop of SyncCluster over the cluster's release/weight pairs
(pod_label_shifter.go lines 106-192). Go iterates the map in unspecified
order; the model takes the pairs as a list and the claims quantify over all
orders. With patch submission succeeding, removedFromLB equals excess and
addedToLB equals missing. -/
def syncReleases (trafficSelector : Labels) (allPods : List Pod) (totalPods totalWeight : Nat) : List (String × Nat) → SyncOutcome
  | [] => ⟨[], [], []⟩
  | (release, weight) :: rest =>
    let releasePods := releasePodsOf allPods release
    let targetPods := calculateReleasePodTarget releasePods.length weight totalPods totalWeight
    let trafficPods := trafficPodsOf allPods trafficSelector release
    let idlePods := idlePodsOf allPods trafficSelector release
    let restOutcome := syncReleases trafficSelector allPods totalPods totalWeight rest
    if trafficPods.length = targetPods then
      ⟨(release, weight) :: restOutcome.achievedWeights, restOutcome.patches, restOutcome.errors⟩
    else if targetPods < trafficPods.length then
      let excess := trafficPods.length - targetPods
      let removedFromLB := excess
      let finalTrafficPods := trafficPods.length - removedFromLB
      ⟨(release, achievedWeight finalTrafficPods totalPods totalWeight) :: restOutcome.achievedWeights,
        disablePatches (trafficPods.take excess) ++ restOutcome.patches,
        restOutcome.errors⟩
    else
      let missing := targetPods - trafficPods.length
      if idlePods.length < missing then
        ⟨restOutcome.achievedWeights, restOutcome.patches,
          SyncError.math release idlePods.length missing :: restOutcome.errors⟩
      else
        let addedToLB := missing
        let finalTrafficPods := trafficPods.length + addedToLB
        ⟨(release, achievedWeight finalTrafficPods totalPods totalWeight) :: restOutcome.achievedWeights,
          enablePatches (idlePods.take missing) ++ restOutcome.patches,
          restOutcome.errors⟩

/-- A service: name, labels, and the optional pod selector of its spec. -/
structure Service where
  name : String
  labels : Labels
  selector : Option Labels
deriving DecidableEq

/-- Services matching the shifter's serviceSelector (newPodLabelShifter,
pod_label_shifter.go lines 40-48): app label equals the app name and lb label
equals the production value. -/
def prodServices (appName : String) (services : List Service) : List Service :=
  services.filter fun s =>
    s.labels.lookup AppLabel == some appName && s.labels.lookup LBLabel == some LBForProduction

/-- The application's pod fleet: pods carrying the app label
(pod_label_shifter.go lines 93-100). -/
def appPods (appName : String) (allPods : List Pod) : List Pod :=
  allPods.filter fun pod => pod.labels.lookup AppLabel == some appName

/-- Total weight of the cluster: uint32 sum of the release weights
(pod_label_shifter.go lines 101-104). -/
def totalWeightOf (releaseWeights : List (String × Nat)) : Nat :=
  releaseWeights.foldl (fun acc x => u32add acc x.2) 0

/-- The podLabelShifter state (pod_label_shifter.go lines 20-27). -/
structure PodLabelShifter where
  appName : String
  clusterReleaseWeights : List (String × List (String × Nat))
deriving DecidableEq

/-- Fatal errors of SyncCluster. Listing failures of the service and pod
clients are external I/O faults outside the model, so only the three
data-dependent fatal errors appear (pod_label_shifter.go lines 67-89). -/
inductive FatalError where
  | noWeightsForCluster (cluster : String)
  | wrongServiceCount (n : Nat)
  | serviceMissesSelector (svcName : String)
deriving DecidableEq

/-- Method SyncCluster (pod_label_shifter.go lines 62-193). Listing services
and pods is modelled by filtering the given cluster-scoped lists. -/
def SyncCluster (p : PodLabelShifter) (cluster : String) (services : List Service) (allPods : List Pod) : Except FatalError SyncOutcome :=
  match p.clusterReleaseWeights.lookup cluster with
  | none => .error (.noWeightsForCluster cluster)
  | some releaseWeights =>
    match prodServices p.appName services with
    | [prodSvc] =>
      match prodSvc.selector with
      | none => .error (.serviceMissesSelector prodSvc.name)
      | some trafficSelector =>
        .ok (syncReleases trafficSelector allPods (appPods p.appName allPods).length
          (totalWeightOf releaseWeights) releaseWeights)
    | svcList => .error (.wrongServiceCount svcList.length)

/-- Target pod count for one release/weight entry of a cluster. -/
def targetOf (pods : List Pod) (tp tw : Nat) (x : String × Nat) : Nat :=
  calculateReleasePodTarget (releasePodsOf pods x.1).length x.2 tp tw

/-- Achieved-weight entry the code writes for one release/weight entry: the
requested weight when the traffic-pod count already equals the target,
otherwise the rounded report at finalTrafficPods = targetPods. -/
def predictedAchieved (sel : Labels) (pods : List Pod) (tp tw : Nat) (x : String × Nat) : String × Nat :=
  if (trafficPodsOf pods sel x.1).length = targetOf pods tp tw x then (x.1, x.2)
  else (x.1, achievedWeight (targetOf pods tp tw x) tp tw)

/-- A cluster already at the target split: every release's traffic-pod count
equals its target pod count. -/
def ConvergedCluster (sel : Labels) (pods : List Pod) (tp tw : Nat) (rws : List (String × Nat)) : Prop :=
  ∀ x ∈ rws, (trafficPodsOf pods sel x.1).length = targetOf pods tp tw x

/-- A pod whose traffic-status label disagrees with intended value Disabled:
the label is absent or Enabled. -/
def NeedsDisable (pod : Pod) : Prop :=
  pod.labels.lookup PodTrafficStatusLabel = none ∨
    pod.labels.lookup PodTrafficStatusLabel = some Enabled

/-- A pod whose traffic-status label disagrees with intended value Enabled:
the label is absent or Disabled. -/
def NeedsEnable (pod : Pod) : Prop :=
  pod.labels.lookup PodTrafficStatusLabel = none ∨
    pod.labels.lookup PodTrafficStatusLabel = some Disabled

/-- A patch touching only a pod whose current traffic-status label disagrees
with the intended value: the patch targets some pod of the list, its
operations are exactly the one-element JSON patch for that pod, and the pod's
label disagrees with the written value. -/
def MinimalPatch (pods : List Pod) (pp : PodPatch) : Prop :=
  ∃ pod ∈ pods, pp.podName = pod.name ∧
    ((pp.ops = patchPodTrafficStatusLabel pod Disabled ∧ NeedsDisable pod) ∨
      (pp.ops = patchPodTrafficStatusLabel pod Enabled ∧ NeedsEnable pod))

/-- Spec.Clusters entry of a TrafficTarget: cluster name and weight
(uint32 in Go). -/
structure TTClusterSpec where
  name : String
  weight : Nat
deriving DecidableEq

/-- A TrafficTarget object: metadata name, namespace, labels, and its
Spec.Clusters list. -/
structure TrafficTarget where
  name : String
  ns : String
  labels : Labels
  clusters : List TTClusterSpec
deriving DecidableEq

/-- Errors of buildClusterReleaseWeights (pod_label_shifter.go lines 284-296),
carrying the data the Go error messages carry. -/
inductive BCRWError where
  | missingReleaseLabel (ns name : String)
  | duplicateRelease (firstName secondName ns release : String)
deriving DecidableEq

/-- Table cluster → release → weight (pod_label_shifter.go line 27). -/
abbrev ClusterReleaseWeights := List (String × List (String × Nat))

instance (ε α : Type) [DecidableEq ε] [DecidableEq α] : DecidableEq (Except ε α) :=
  fun a b =>
    match a, b with
    | .error e1, .error e2 =>
      match decEq e1 e2 with
      | isTrue h => isTrue (by rw [h])
      | isFalse h => isFalse (by intro hh; cases hh; exact h rfl)
    | .ok v1, .ok v2 =>
      match decEq v1 v2 with
      | isTrue h => isTrue (by rw [h])
      | isFalse h => isFalse (by intro hh; cases hh; exact h rfl)
    | .error _, .ok _ => isFalse (by intro hh; cases hh)
    | .ok _, .error _ => isFalse (by intro hh; cases hh)

/-- Go statement weights[release] += cluster.Weight (pod_label_shifter.go
line 305) on a release → weight map, in uint32 arithmetic; a missing key reads
as zero. -/
def bumpRelease : List (String × Nat) → String → Nat → List (String × Nat)
  | [], release, w => [(release, u32add 0 w)]
  | (r, x) :: rest, release, w =>
    if r = release then (r, u32add x w) :: rest
    else (r, x) :: bumpRelease rest release w

/-- Go statements at pod_label_shifter.go lines 299-306: ensure the cluster's
inner map exists, then bump the release weight. -/
def bumpCluster : ClusterReleaseWeights → String → String → Nat → ClusterReleaseWeights
  | [], cluster, release, w => [(cluster, bumpRelease [] release w)]
  | (c, ws) :: rest, cluster, release, w =>
    if c = cluster then (c, bumpRelease ws release w) :: rest
    else (c, ws) :: bumpCluster rest cluster release w

/-- Inner loop over tt.Spec.Clusters (pod_label_shifter.go lines 299-306). -/
def addClusters (m : ClusterReleaseWeights) (release : String) : List TTClusterSpec → ClusterReleaseWeights
  | [] => m
  | c :: rest => addClusters (bumpCluster m c.name release c.weight) release rest

/-- Main loop of buildClusterReleaseWeights (pod_label_shifter.go
lines 279-309), carrying the cluster → release → weight table and the
release → TrafficTarget table releaseTT. -/
def bcrwGo (clusterReleases : ClusterReleaseWeights) (releaseTT : List (String × TrafficTarget)) : List TrafficTarget → Except BCRWError ClusterReleaseWeights
  | [] => .ok clusterReleases
  | tt :: rest =>
    match tt.labels.lookup ReleaseLabel with
    | none => .error (.missingReleaseLabel tt.ns tt.name)
    | some release =>
      match releaseTT.lookup release with
      | some existingTT => .error (.duplicateRelease existingTT.name tt.name tt.ns release)
      | none => bcrwGo (addClusters clusterReleases release tt.clusters) ((release, tt) :: releaseTT) rest

/-- Function buildClusterReleaseWeights (pod_label_shifter.go lines 279-309). -/
def buildClusterReleaseWeights (trafficTargets : List TrafficTarget) : Except BCRWError ClusterReleaseWeights :=
  bcrwGo [] [] trafficTargets

/-- Lookup in the two-level table, with Go map semantics: none when either
level has no entry. -/
def lookupWeight (m : ClusterReleaseWeights) (cluster release : String) : Option Nat :=
  (m.lookup cluster).bind fun ws => ws.lookup release

/-- Entries of one TrafficTarget's Spec.Clusters for a given cluster name. -/
def clusterEntries (tt : TrafficTarget) (cluster : String) : List TTClusterSpec :=
  tt.clusters.filter fun c => c.name = cluster

/-- The weight the table should hold for (cluster, release): the per-cluster
weights of the unique TrafficTarget labelled with the release, summed in
uint32 arithmetic; none when that target has no entry for the cluster. -/
def specWeight (trafficTargets : List TrafficTarget) (cluster release : String) : Option Nat :=
  match trafficTargets.find? (fun tt => tt.labels.lookup ReleaseLabel == some release) with
  | none => none
  | some tt =>
    if (clusterEntries tt cluster).isEmpty then none
    else some (((clusterEntries tt cluster).map (fun c => c.weight)).foldl u32add 0)

/-- Release labels carried by a list of TrafficTargets, in order. -/
def releaseLabels (trafficTargets : List TrafficTarget) : List String :=
  trafficTargets.filterMap fun tt => tt.labels.lookup ReleaseLabel

/-- Well-formed input of buildClusterReleaseWeights: every TrafficTarget has a
release label and no two share one. -/
def BCRWWellFormed (trafficTargets : List TrafficTarget) : Prop :=
  (∀ tt ∈ trafficTargets, (tt.labels.lookup ReleaseLabel).isSome = true) ∧
    (releaseLabels trafficTargets).Nodup

/-- Accumulate weights into an optional table cell, uint32-wise: each step
reads the cell (absent as zero) and writes the wrapped sum back. -/
def applyEntries (base : Option Nat) (ws : List Nat) : Option Nat :=
  ws.foldl (fun acc w => some (u32add (acc.getD 0) w)) base

/-- A release condition (shipper.ReleaseCondition): type, status, transition
time, reason and message. The timestamp is an opaque tick. -/
structure ReleaseCondition where
  condType : String
  status : String
  lastTransitionTime : Nat
  reason : String
  message : String
deriving DecidableEq

/-- A release status, restricted to its condition list
(shipper.ReleaseStatus.Conditions). -/
structure ReleaseStatus where
  conditions : List ReleaseCondition
deriving DecidableEq

/-- Type ReleaseConditionDiff (part_000 lines 17-19). -/
structure ReleaseConditionDiff where
  c1 : Option ReleaseCondition
  c2 : Option ReleaseCondition
deriving DecidableEq

/-- Method IsEmpty (part_000 lines 30-41): two conditions are equal iff type,
status, reason and message all match; the transition time is ignored. -/
def ReleaseConditionDiff.IsEmpty (d : ReleaseConditionDiff) : Bool :=
  match d.c1, d.c2 with
  | none, none => true
  | some c1, some c2 =>
    c1.condType == c2.condType && c1.status == c2.status &&
      c1.reason == c2.reason && c1.message == c2.message
  | _, _ => false

/-- Function GetReleaseCondition (part_000 lines 85-93): first condition of
the given type. -/
def GetReleaseCondition (status : ReleaseStatus) (condType : String) : Option ReleaseCondition :=
  status.conditions.find? fun c => c.condType == condType

/-- Function filterOutCondition (part_000 lines 113-122). -/
def filterOutCondition (conditions : List ReleaseCondition) (condType : String) : List ReleaseCondition :=
  conditions.filter fun c => c.condType != condType

/-- Insertion step of the sort at part_000 lines 78-80 (sort.Slice with the
comparator Type < Type). -/
def insertCond (c : ReleaseCondition) : List ReleaseCondition → List ReleaseCondition
  | [] => [c]
  | d :: rest =>
    if c.condType < d.condType then c :: d :: rest
    else d :: insertCond c rest

/-- The sort at part_000 lines 78-80. sort.Slice is not stable, but every
state the code builds has pairwise distinct condition types, on which all
correct sorts agree; insertion sort is the model. -/
def sortConditions : List ReleaseCondition → List ReleaseCondition
  | [] => []
  | c :: rest => insertCond c (sortConditions rest)

/-- Function SetReleaseCondition (part_000 lines 65-83). Returns the new
status (Go mutates *status) and the diff (nil modelled as none). -/
def SetReleaseCondition (status : ReleaseStatus) (condition : ReleaseCondition) : ReleaseStatus × Option ReleaseConditionDiff :=
  let currentCond := GetReleaseCondition status condition.condType
  let diff : ReleaseConditionDiff := ⟨currentCond, some condition⟩
  if diff.IsEmpty then (status, none)
  else
    let condition :=
      match currentCond with
      | some cc =>
        if cc.status == condition.status then
          { condition with lastTransitionTime := cc.lastTransitionTime }
        else condition
      | none => condition
    (⟨sortConditions (filterOutCondition status.conditions condition.condType ++ [condition])⟩,
      some diff)

/-- Function RemoveReleaseCondition (part_000 lines 95-97), as the status its
body computes. Go passes status by value, so the caller's copy is in fact
unchanged; the filtered status is what the body builds. -/
def RemoveReleaseCondition (status : ReleaseStatus) (condType : String) : ReleaseStatus :=
  ⟨filterOutCondition status.conditions condType⟩

/-- One operation on a release status's conditions. -/
inductive CondOp where
  | set (c : ReleaseCondition)
  | remove (t : String)

/-- Apply one condition operation. -/
def applyCondOp (status : ReleaseStatus) : CondOp → ReleaseStatus
  | .set c => (SetReleaseCondition status c).1
  | .remove t => RemoveReleaseCondition status t

/-- Apply a sequence of condition operations, oldest first. -/
def applyCondOps (status : ReleaseStatus) : List CondOp → ReleaseStatus
  | [] => status
  | op :: rest => applyCondOps (applyCondOp status op) rest

/-- Invariant claimed for condition lists: strictly ascending condition types
(hence sorted, and at most one condition per type). -/
def ConditionsInvariant (conditions : List ReleaseCondition) : Prop :=
  conditions.Pairwise fun a b => a.condType < b.condType

/-- A labelled target object (InstallationTarget, TrafficTarget or
CapacityTarget) as the resolver sees it: metadata name and labels. -/
structure TargetObj where
  name : String
  labels : Labels
deriving DecidableEq

instance : Inhabited TargetObj := ⟨⟨"", []⟩⟩

/-- The three target kinds handled by TargetObjectsForRelease. -/
inductive TargetKind where
  | installationTarget
  | trafficTarget
  | capacityTarget
deriving DecidableEq

/-- Error NewUnexpectedObjectCountFromSelectorError (part_000 lines 252-269):
the kind it names, the expected count and the count it reports. -/
structure UnexpectedObjectCountError where
  kind : TargetKind
  expected : Nat
  got : Nat
deriving DecidableEq

/-- The cluster-side object lists the resolver queries, one per kind. -/
structure TargetEnv where
  installationTargets : List TargetObj
  trafficTargets : List TargetObj
  capacityTargets : List TargetObj
deriving DecidableEq

/-- Selector used by TargetObjectsForRelease (part_000 line 245): the object's
release label equals the release name. -/
def matchesRelease (relName : String) (o : TargetObj) : Bool :=
  o.labels.lookup ReleaseLabel == some relName

/-- Function TargetObjectsForRelease (part_000 lines 235-273). List calls are
modelled by filtering; exactly one object of each kind must match. Note the
source reports len(itList.Items) in all three error branches; the model keeps
that. The source returns (installation, traffic, capacity). -/
def TargetObjectsForRelease (relName : String) (env : TargetEnv) : Except UnexpectedObjectCountError (TargetObj × TargetObj × TargetObj) :=
  let itList := env.installationTargets.filter (matchesRelease relName)
  if itList.length ≠ 1 then
    .error ⟨.installationTarget, 1, itList.length⟩
  else
    let ttList := env.trafficTargets.filter (matchesRelease relName)
    if ttList.length ≠ 1 then
      .error ⟨.trafficTarget, 1, itList.length⟩
    else
      let ctList := env.capacityTargets.filter (matchesRelease relName)
      if ctList.length ≠ 1 then
        .error ⟨.capacityTarget, 1, itList.length⟩
      else
        .ok (itList.headI, ttList.headI, ctList.headI)

/-- Ceiling of a quotient of naturals, as natural ceiling division. -/
theorem toNat_ceil_natCast_div (a b : Nat) (hb : b ≠ 0) :
    (⌈(a : ℚ) / (b : ℚ)⌉).toNat = (a + b - 1) / b := by
  have hb0 : 0 < b := Nat.pos_of_ne_zero hb
  have hbq : (0 : ℚ) < (b : ℚ) := by exact_mod_cast hb0
  rw [Int.ceil_toNat, ← Nat.ceilDiv_eq_add_pred_div]
  refine le_antisymm ?_ ?_
  · rw [Nat.ceil_le, div_le_iff₀ hbq]
    have h := le_smul_ceilDiv hb0 (b := a)
    rw [smul_eq_mul] at h
    calc (a : ℚ) ≤ ((b * (a ⌈/⌉ b) : ℕ) : ℚ) := by exact_mod_cast h
    _ = (a ⌈/⌉ b : ℕ) * (b : ℚ) := by push_cast; ring
  · rw [ceilDiv_le_iff_le_smul hb0, smul_eq_mul]
    have h1 : (a : ℚ) / b ≤ (⌈(a : ℚ) / b⌉₊ : ℚ) := Nat.le_ceil _
    rw [div_le_iff₀ hbq] at h1
    have h2 : (a : ℚ) ≤ ((⌈(a : ℚ) / b⌉₊ * b : ℕ) : ℚ) := by push_cast; exact h1
    have h3 : a ≤ ⌈(a : ℚ) / b⌉₊ * b := by exact_mod_cast h2
    calc a ≤ ⌈(a : ℚ) / b⌉₊ * b := h3
    _ = b * ⌈(a : ℚ) / b⌉₊ := Nat.mul_comm _ _

/-- Floor of a quotient of naturals, as natural division. -/
theorem toNat_floor_natCast_div (a b : Nat) :
    (⌊(a : ℚ) / (b : ℚ)⌋).toNat = a / b := by
  rw [Int.floor_toNat, Nat.floor_div_nat, Nat.floor_natCast]

/-- Evaluation form of calculateReleasePodTarget: pure natural arithmetic. -/
theorem calculateReleasePodTarget_eval (rp w tp tw : Nat) :
    calculateReleasePodTarget rp w tp tw =
      min rp (if tw = 0 then 0 else (tp * w + tw - 1) / tw) := by
  unfold calculateReleasePodTarget CalculateDesiredReplicaCount targetPercent
  by_cases h : tw = 0
  · simp [h]
  · rw [if_neg h, if_neg h]
    have htw : ((tw : ℚ)) ≠ 0 := Nat.cast_ne_zero.mpr h
    have hq : (tp : ℚ) * ((w : ℚ) / (tw : ℚ) * 100) / 100 = ((tp * w : ℕ) : ℚ) / ((tw : ℕ) : ℚ) := by
      push_cast
      field_simp
      ring
    rw [hq, toNat_ceil_natCast_div _ _ h]

/-- Evaluation form of achievedWeight: pure natural arithmetic. -/
theorem achievedWeight_eval (f tp tw : Nat) :
    achievedWeight f tp tw =
      (if tp = 0 then 0 else (2 * f * tw + tp) / (2 * tp)) % u32Mod := by
  unfold achievedWeight round
  by_cases h : tp = 0
  · subst h
    norm_num
  · rw [if_neg h]
    have hnn : (0 : ℚ) ≤ (f : ℚ) / (tp : ℚ) * (tw : ℚ) := by positivity
    rw [if_neg (not_lt.mpr hnn)]
    have htp : ((tp : ℚ)) ≠ 0 := Nat.cast_ne_zero.mpr h
    have hq : (f : ℚ) / (tp : ℚ) * (tw : ℚ) + 1/2 = ((2 * f * tw + tp : ℕ) : ℚ) / ((2 * tp : ℕ) : ℚ) := by
      push_cast
      field_simp
      ring
    rw [hq, toNat_floor_natCast_div]

/-- Filtering a list by a predicate and by its negation partitions it. -/
theorem length_filter_add_length_filter_not {α : Type} (l : List α) (p : α → Bool) :
    (l.filter p).length + (l.filter fun a => !(p a)).length = l.length := by
  induction l with
  | nil => rfl
  | cons a l ih =>
    by_cases h : p a <;> simp [List.filter_cons, h] <;> omega

/-- Traffic pods and idle pods partition a release's pods. -/
theorem length_traffic_add_idle (pods : List Pod) (sel : Labels) (release : String) :
    (trafficPodsOf pods sel release).length + (idlePodsOf pods sel release).length
      = (releasePodsOf pods release).length :=
  length_filter_add_length_filter_not _ _

/-- The pod target never exceeds the release's own pod count. -/
theorem calculateReleasePodTarget_le (rp w tp tw : Nat) :
    calculateReleasePodTarget rp w tp tw ≤ rp :=
  min_le_left _ _

/-- With zero total weight the pod target is zero. -/
theorem calculateReleasePodTarget_zero (rp w tp : Nat) :
    calculateReleasePodTarget rp w tp 0 = 0 := by
  rw [calculateReleasePodTarget_eval]
  simp

/-- The error list of a syncReleases run is always empty: the math-error
branch is unreachable. -/
theorem syncReleases_errors_nil (sel : Labels) (pods : List Pod) (tp tw : Nat) (rws : List (String × Nat)) :
    (syncReleases sel pods tp tw rws).errors = [] := by
  induction rws with
  | nil => rfl
  | cons x rest ih =>
    obtain ⟨release, weight⟩ := x
    have hpart := length_traffic_add_idle pods sel release
    have htgt := calculateReleasePodTarget_le (releasePodsOf pods release).length weight tp tw
    simp only [syncReleases]
    split
    · simpa using ih
    · split
      · simpa using ih
      · split
        · next h1 h2 h3 => omega
        · simpa using ih

/-- The achieved-weight entries of a syncReleases run, release by release. -/
theorem syncReleases_achievedWeights (sel : Labels) (pods : List Pod) (tp tw : Nat) (rws : List (String × Nat)) :
    (syncReleases sel pods tp tw rws).achievedWeights
      = rws.map (predictedAchieved sel pods tp tw) := by
  induction rws with
  | nil => rfl
  | cons x rest ih =>
    obtain ⟨release, weight⟩ := x
    have hpart := length_traffic_add_idle pods sel release
    have htgt := calculateReleasePodTarget_le (releasePodsOf pods release).length weight tp tw
    simp only [syncReleases, List.map_cons]
    split
    · next h =>
      simp only [predictedAchieved, targetOf] at *
      rw [if_pos h]
      simpa using ih
    · next h =>
      split
      · next h2 =>
        have hfin : (trafficPodsOf pods sel release).length
            - ((trafficPodsOf pods sel release).length
              - calculateReleasePodTarget (releasePodsOf pods release).length weight tp tw)
            = calculateReleasePodTarget (releasePodsOf pods release).length weight tp tw := by
          omega
        simp only [predictedAchieved, targetOf] at *
        rw [if_neg h, hfin]
        simpa using ih
      · next h2 =>
        split
        · next h3 => omega
        · next h3 =>
          have hfin : (trafficPodsOf pods sel release).length
              + (calculateReleasePodTarget (releasePodsOf pods release).length weight tp tw
                - (trafficPodsOf pods sel release).length)
              = calculateReleasePodTarget (releasePodsOf pods release).length weight tp tw := by
            omega
          simp only [predictedAchieved, targetOf] at *
          rw [if_neg h, hfin]
          simpa using ih

/-- Patches of the disable loop come from listed pods whose label is absent or
Enabled, and carry the one-element JSON patch writing Disabled. -/
theorem mem_disablePatches {pp : PodPatch} {pods : List Pod} (h : pp ∈ disablePatches pods) :
    ∃ pod ∈ pods, pp = ⟨pod.name, patchPodTrafficStatusLabel pod Disabled⟩ ∧ NeedsDisable pod := by
  rw [disablePatches, List.mem_filterMap] at h
  obtain ⟨pod, hmem, hf⟩ := h
  refine ⟨pod, hmem, ?_⟩
  split at hf
  · next hl =>
    cases hf
    exact ⟨rfl, Or.inl hl⟩
  · next v hl =>
    split at hf
    · next hv =>
      cases hf
      exact ⟨rfl, Or.inr (hv ▸ hl)⟩
    · cases hf

/-- Patches of the enable loop come from listed pods whose label is absent or
Disabled, and carry the one-element JSON patch writing Enabled. -/
theorem mem_enablePatches {pp : PodPatch} {pods : List Pod} (h : pp ∈ enablePatches pods) :
    ∃ pod ∈ pods, pp = ⟨pod.name, patchPodTrafficStatusLabel pod Enabled⟩ ∧ NeedsEnable pod := by
  rw [enablePatches, List.mem_filterMap] at h
  obtain ⟨pod, hmem, hf⟩ := h
  refine ⟨pod, hmem, ?_⟩
  split at hf
  · next hl =>
    cases hf
    exact ⟨rfl, Or.inl hl⟩
  · next v hl =>
    split at hf
    · next hv =>
      cases hf
      exact ⟨rfl, Or.inr (hv ▸ hl)⟩
    · cases hf

/-- Pods listed for a release are pods of the cluster list. -/
theorem releasePodsOf_subset (pods : List Pod) (release : String) :
    releasePodsOf pods release ⊆ pods :=
  fun _ h => List.mem_of_mem_filter h

/-- Traffic pods of a release are pods of the cluster list. -/
theorem trafficPodsOf_subset (pods : List Pod) (sel : Labels) (release : String) :
    trafficPodsOf pods sel release ⊆ pods :=
  fun _ h => releasePodsOf_subset pods release (List.mem_of_mem_filter h)

/-- Idle pods of a release are pods of the cluster list. -/
theorem idlePodsOf_subset (pods : List Pod) (sel : Labels) (release : String) :
    idlePodsOf pods sel release ⊆ pods :=
  fun _ h => releasePodsOf_subset pods release (List.mem_of_mem_filter h)

/-- Every patch of a syncReleases run touches a pod of the cluster whose
current traffic-status label disagrees with the written value. -/
theorem syncReleases_patches_minimal (sel : Labels) (pods : List Pod) (tp tw : Nat) (rws : List (String × Nat)) :
    ∀ pp ∈ (syncReleases sel pods tp tw rws).patches, MinimalPatch pods pp := by
  induction rws with
  | nil => intro pp hpp; cases hpp
  | cons x rest ih =>
    obtain ⟨release, weight⟩ := x
    intro pp hpp
    simp only [syncReleases] at hpp
    split at hpp
    · exact ih pp hpp
    · split at hpp
      · rw [List.mem_append] at hpp
        rcases hpp with hpp | hpp
        · obtain ⟨pod, hmem, heq, hneed⟩ := mem_disablePatches hpp
          exact ⟨pod, trafficPodsOf_subset pods sel release (List.take_subset _ _ hmem),
            by rw [heq], Or.inl ⟨by rw [heq], hneed⟩⟩
        · exact ih pp hpp
      · split at hpp
        · exact ih pp hpp
        · rw [List.mem_append] at hpp
          rcases hpp with hpp | hpp
          · obtain ⟨pod, hmem, heq, hneed⟩ := mem_enablePatches hpp
            exact ⟨pod, idlePodsOf_subset pods sel release (List.take_subset _ _ hmem),
              by rw [heq], Or.inr ⟨by rw [heq], hneed⟩⟩
          · exact ih pp hpp

/-- On a cluster already at the target split, syncReleases emits no patch. -/
theorem syncReleases_converged_patches_nil (sel : Labels) (pods : List Pod) (tp tw : Nat) (rws : List (String × Nat))
    (h : ConvergedCluster sel pods tp tw rws) :
    (syncReleases sel pods tp tw rws).patches = [] := by
  induction rws with
  | nil => rfl
  | cons x rest ih =>
    obtain ⟨release, weight⟩ := x
    have hx : (trafficPodsOf pods sel release).length
        = calculateReleasePodTarget (releasePodsOf pods release).length weight tp tw :=
      h (release, weight) (List.mem_cons_self _ _)
    simp only [syncReleases]
    rw [if_pos hx]
    exact ih fun y hy => h y (List.mem_cons_of_mem _ hy)

/-- With zero total weight, the patches of a syncReleases run are exactly the
Disabled patches of every release's traffic pods whose label is absent or
Enabled. -/
theorem syncReleases_zero_weight_patches (sel : Labels) (pods : List Pod) (tp : Nat) (rws : List (String × Nat)) :
    (syncReleases sel pods tp 0 rws).patches
      = (rws.map fun x => disablePatches (trafficPodsOf pods sel x.1)).flatten := by
  induction rws with
  | nil => rfl
  | cons x rest ih =>
    obtain ⟨release, weight⟩ := x
    have htgt := calculateReleasePodTarget_zero (releasePodsOf pods release).length weight tp
    simp only [syncReleases, List.map_cons, List.flatten_cons]
    split
    · next h =>
      rw [htgt] at h
      have : trafficPodsOf pods sel release = [] := List.length_eq_zero.mp h
      rw [this]
      simpa using ih
    · next h =>
      split
      · next h2 =>
        rw [htgt, Nat.sub_zero, List.take_length]
        rw [ih]
      · next h2 =>
        rw [htgt] at h h2
        omega

/-- SyncCluster computed from its resolved components: the cluster's weights,
the unique production service and its selector. -/
theorem SyncCluster_eq (p : PodLabelShifter) (cluster : String) (services : List Service) (allPods : List Pod)
    (rws : List (String × Nat)) (svc : Service) (tsel : Labels)
    (hrw : p.clusterReleaseWeights.lookup cluster = some rws)
    (hsvc : prodServices p.appName services = [svc])
    (hsel : svc.selector = some tsel) :
    SyncCluster p cluster services allPods
      = .ok (syncReleases tsel allPods (appPods p.appName allPods).length (totalWeightOf rws) rws) := by
  simp only [SyncCluster, hrw, hsvc, hsel]

/-- A successful SyncCluster run factors through syncReleases. -/
theorem SyncCluster_ok_inv {p : PodLabelShifter} {cluster : String} {services : List Service}
    {allPods : List Pod} {out : SyncOutcome}
    (h : SyncCluster p cluster services allPods = .ok out) :
    ∃ rws svc tsel,
      p.clusterReleaseWeights.lookup cluster = some rws ∧
      prodServices p.appName services = [svc] ∧
      svc.selector = some tsel ∧
      out = syncReleases tsel allPods (appPods p.appName allPods).length (totalWeightOf rws) rws := by
  unfold SyncCluster at h
  cases hlk : p.clusterReleaseWeights.lookup cluster with
  | none =>
    simp only [hlk] at h
    exact Except.noConfusion h
  | some rws =>
    simp only [hlk] at h
    cases hps : prodServices p.appName services with
    | nil =>
      simp only [hps] at h
      exact Except.noConfusion h
    | cons svc restSvcs =>
      cases restSvcs with
      | cons s2 restSvcs2 =>
        simp only [hps] at h
        exact Except.noConfusion h
      | nil =>
        simp only [hps] at h
        cases hsel : svc.selector with
        | none =>
          simp only [hsel] at h
          exact Except.noConfusion h
        | some tsel =>
          simp only [hsel, Except.ok.injEq] at h
          exact ⟨rws, svc, tsel, rfl, rfl, hsel, h.symm⟩

/-- C10: the math-error branch of SyncCluster (missing enabled pods exceeding
the idle pods, reported via NewTargetClusterMathError) is unreachable: the
target is clamped to the release's pod count and the release's pods partition
into traffic and idle pods, so every successful run returns an empty error
list. -/
theorem C10_math_error_unreachable (p : PodLabelShifter) (cluster : String) (services : List Service)
    (allPods : List Pod) (out : SyncOutcome)
    (hok : SyncCluster p cluster services allPods = .ok out) :
    out.errors = [] := by
  obtain ⟨rws, svc, tsel, -, -, -, hout⟩ := SyncCluster_ok_inv hok
  rw [hout]
  exact syncReleases_errors_nil _ _ _ _ _

/-- C10 witness: a concrete successful run with an empty error list. -/
theorem C10_witness :
    (⟨[("r", 50)], [], []⟩ : SyncOutcome).errors = [] :=
  C10_math_error_unreachable ⟨"a", [("c1", [("r", 50)])]⟩ "c1"
    [⟨"s", [(AppLabel, "a"), (LBLabel, LBForProduction)], some [("role", "prod")]⟩]
    [⟨"p1", [(AppLabel, "a"), (ReleaseLabel, "r"), ("role", "prod")]⟩, ⟨"p2", [(AppLabel, "a")]⟩]
    ⟨[("r", 50)], [], []⟩
    (by simp [SyncCluster, prodServices, appPods, totalWeightOf, u32add, u32Mod,
      syncReleases, releasePodsOf, trafficPodsOf, idlePodsOf, getsTraffic,
      calculateReleasePodTarget_eval, achievedWeight_eval,
      AppLabel, ReleaseLabel, LBLabel, LBForProduction, List.lookup, List.filter, List.all])

/-- C3: every patch of a SyncCluster run targets a pod whose current
traffic-status label disagrees with the written value (Disabled only when the
label is absent or Enabled, Enabled only when absent or Disabled), and a run
on a cluster already at the target split emits zero patches. -/
theorem C3_minimal_and_idempotent (p : PodLabelShifter) (cluster : String) (services : List Service)
    (allPods : List Pod) (rws : List (String × Nat)) (svc : Service) (tsel : Labels) (out : SyncOutcome)
    (hrw : p.clusterReleaseWeights.lookup cluster = some rws)
    (hsvc : prodServices p.appName services = [svc])
    (hsel : svc.selector = some tsel)
    (hok : SyncCluster p cluster services allPods = .ok out) :
    (∀ pp ∈ out.patches, MinimalPatch allPods pp) ∧
      (ConvergedCluster tsel allPods (appPods p.appName allPods).length (totalWeightOf rws) rws →
        out.patches = []) := by
  rw [SyncCluster_eq p cluster services allPods rws svc tsel hrw hsvc hsel] at hok
  injection hok with hout
  rw [← hout]
  exact ⟨syncReleases_patches_minimal _ _ _ _ _,
    syncReleases_converged_patches_nil _ _ _ _ _⟩

/-- C3 witness: the concrete run above is converged, its patch list is empty
and (vacuously on the empty list) minimal. -/
theorem C3_witness :
    (∀ pp ∈ (⟨[("r", 50)], [], []⟩ : SyncOutcome).patches,
      MinimalPatch [⟨"p1", [(AppLabel, "a"), (ReleaseLabel, "r"), ("role", "prod")]⟩,
        ⟨"p2", [(AppLabel, "a")]⟩] pp) ∧
      (ConvergedCluster [("role", "prod")]
          [⟨"p1", [(AppLabel, "a"), (ReleaseLabel, "r"), ("role", "prod")]⟩,
            ⟨"p2", [(AppLabel, "a")]⟩]
          (appPods "a" [⟨"p1", [(AppLabel, "a"), (ReleaseLabel, "r"), ("role", "prod")]⟩,
            ⟨"p2", [(AppLabel, "a")]⟩]).length
          (totalWeightOf [("r", 50)]) [("r", 50)] →
        (⟨[("r", 50)], [], []⟩ : SyncOutcome).patches = []) :=
  C3_minimal_and_idempotent ⟨"a", [("c1", [("r", 50)])]⟩ "c1"
    [⟨"s", [(AppLabel, "a"), (LBLabel, LBForProduction)], some [("role", "prod")]⟩]
    [⟨"p1", [(AppLabel, "a"), (ReleaseLabel, "r"), ("role", "prod")]⟩, ⟨"p2", [(AppLabel, "a")]⟩]
    [("r", 50)]
    ⟨"s", [(AppLabel, "a"), (LBLabel, LBForProduction)], some [("role", "prod")]⟩
    [("role", "prod")]
    ⟨[("r", 50)], [], []⟩
    rfl
    (by decide)
    rfl
    (by simp [SyncCluster, prodServices, appPods, totalWeightOf, u32add, u32Mod,
      syncReleases, releasePodsOf, trafficPodsOf, idlePodsOf, getsTraffic,
      calculateReleasePodTarget_eval, achievedWeight_eval,
      AppLabel, ReleaseLabel, LBLabel, LBForProduction, List.lookup, List.filter, List.all])

/-- C1 counterexample: a cluster whose single release has weight 0 (so
totalWeight = 0), with one pod currently carrying traffic. The claim predicts
zero patches; the run emits one patch disabling that pod. -/
theorem C1_counterexample :
    totalWeightOf [("r", 0)] = 0 ∧
      SyncCluster ⟨"a", [("c1", [("r", 0)])]⟩ "c1"
          [⟨"s", [(AppLabel, "a"), (LBLabel, LBForProduction)], some [("role", "prod")]⟩]
          [⟨"p1", [(AppLabel, "a"), (ReleaseLabel, "r"), ("role", "prod")]⟩]
        = .ok ⟨[("r", 0)],
            [⟨"p1", [⟨AddOp, "/metadata/labels/" ++ PodTrafficStatusLabel, Disabled⟩]⟩], []⟩ := by
  refine ⟨by decide, ?_⟩
  simp [SyncCluster, prodServices, appPods, totalWeightOf, u32add, u32Mod,
    syncReleases, releasePodsOf, trafficPodsOf, idlePodsOf, getsTraffic,
    disablePatches, patchPodTrafficStatusLabel,
    calculateReleasePodTarget_eval, achievedWeight_eval,
    AppLabel, ReleaseLabel, LBLabel, LBForProduction, PodTrafficStatusLabel,
    AddOp, Disabled, List.lookup, List.filter, List.all]

/-- C1 (amended): when the cluster's weights sum to zero, the target percent
and the pod target are 0 for every release, no math error arises, and the
emitted patches are exactly the Disabled patches for each release's traffic
pods whose traffic-status label is absent or Enabled; the run is not patch
free when such pods exist. -/
theorem C1_zero_total_weight_amended (p : PodLabelShifter) (cluster : String) (services : List Service)
    (allPods : List Pod) (rws : List (String × Nat)) (svc : Service) (tsel : Labels) (out : SyncOutcome)
    (hrw : p.clusterReleaseWeights.lookup cluster = some rws)
    (hsvc : prodServices p.appName services = [svc])
    (hsel : svc.selector = some tsel)
    (hok : SyncCluster p cluster services allPods = .ok out)
    (hw : totalWeightOf rws = 0) :
    (∀ w, targetPercent w (totalWeightOf rws) = 0) ∧
      (∀ rp w tp, calculateReleasePodTarget rp w tp (totalWeightOf rws) = 0) ∧
      out.errors = [] ∧
      out.patches = (rws.map fun x => disablePatches (trafficPodsOf allPods tsel x.1)).flatten := by
  rw [SyncCluster_eq p cluster services allPods rws svc tsel hrw hsvc hsel] at hok
  injection hok with hout
  rw [← hout, hw]
  refine ⟨?_, ?_, syncReleases_errors_nil _ _ _ _ _, syncReleases_zero_weight_patches _ _ _ _⟩
  · intro w
    simp [targetPercent]
  · intro rp w tp
    exact calculateReleasePodTarget_zero rp w tp

/-- C1 witness: the amended claim at the counterexample input. -/
theorem C1_witness :
    (∀ w, targetPercent w (totalWeightOf [("r", 0)]) = 0) ∧
      (∀ rp w tp, calculateReleasePodTarget rp w tp (totalWeightOf [("r", 0)]) = 0) ∧
      (⟨[("r", 0)],
        [⟨"p1", [⟨AddOp, "/metadata/labels/" ++ PodTrafficStatusLabel, Disabled⟩]⟩], []⟩
          : SyncOutcome).errors = [] ∧
      (⟨[("r", 0)],
        [⟨"p1", [⟨AddOp, "/metadata/labels/" ++ PodTrafficStatusLabel, Disabled⟩]⟩], []⟩
          : SyncOutcome).patches
        = ([("r", 0)].map fun x =>
            disablePatches (trafficPodsOf
              [⟨"p1", [(AppLabel, "a"), (ReleaseLabel, "r"), ("role", "prod")]⟩]
              [("role", "prod")] x.1)).flatten :=
  C1_zero_total_weight_amended ⟨"a", [("c1", [("r", 0)])]⟩ "c1"
    [⟨"s", [(AppLabel, "a"), (LBLabel, LBForProduction)], some [("role", "prod")]⟩]
    [⟨"p1", [(AppLabel, "a"), (ReleaseLabel, "r"), ("role", "prod")]⟩]
    [("r", 0)]
    ⟨"s", [(AppLabel, "a"), (LBLabel, LBForProduction)], some [("role", "prod")]⟩
    [("role", "prod")]
    ⟨[("r", 0)], [⟨"p1", [⟨AddOp, "/metadata/labels/" ++ PodTrafficStatusLabel, Disabled⟩]⟩], []⟩
    rfl
    (by decide)
    rfl
    (by simp [SyncCluster, prodServices, appPods, totalWeightOf, u32add, u32Mod,
      syncReleases, releasePodsOf, trafficPodsOf, idlePodsOf, getsTraffic,
      disablePatches, patchPodTrafficStatusLabel,
      calculateReleasePodTarget_eval, achievedWeight_eval,
      AppLabel, ReleaseLabel, LBLabel, LBForProduction, PodTrafficStatusLabel,
      AddOp, Disabled, List.lookup, List.filter, List.all])
    (by decide)

/-- C2 counterexample: totalPods = 2, totalWeight = 50, one release with one
traffic pod equal to its target. The run reports the requested weight 50,
while the claim's formula round((1 / 2) × 50) gives 25; no patch is emitted,
so finalTrafficPods is the single current traffic pod. -/
theorem C2_counterexample :
    SyncCluster ⟨"a", [("c1", [("r", 50)])]⟩ "c1"
        [⟨"s", [(AppLabel, "a"), (LBLabel, LBForProduction)], some [("role", "prod")]⟩]
        [⟨"p1", [(AppLabel, "a"), (ReleaseLabel, "r"), ("role", "prod")]⟩, ⟨"p2", [(AppLabel, "a")]⟩]
      = .ok ⟨[("r", 50)], [], []⟩ ∧
      (trafficPodsOf
          [⟨"p1", [(AppLabel, "a"), (ReleaseLabel, "r"), ("role", "prod")]⟩, ⟨"p2", [(AppLabel, "a")]⟩]
          [("role", "prod")] "r").length = 1 ∧
      (appPods "a"
          [⟨"p1", [(AppLabel, "a"), (ReleaseLabel, "r"), ("role", "prod")]⟩, ⟨"p2", [(AppLabel, "a")]⟩]).length = 2 ∧
      totalWeightOf [("r", 50)] = 50 ∧
      achievedWeight 1 2 50 = 25 ∧
      (50 : Nat) ≠ 25 := by
  refine ⟨?_, by decide, by decide, by decide, ?_, by decide⟩
  · simp [SyncCluster, prodServices, appPods, totalWeightOf, u32add, u32Mod,
      syncReleases, releasePodsOf, trafficPodsOf, idlePodsOf, getsTraffic,
      calculateReleasePodTarget_eval, achievedWeight_eval,
      AppLabel, ReleaseLabel, LBLabel, LBForProduction, List.lookup, List.filter, List.all]
  · rw [achievedWeight_eval]
    decide

/-- C2 (amended): for every release the run processes, the reported achieved
weight is the requested weight when the release's current traffic-pod count
already equals targetPods, and otherwise round((finalTrafficPods / totalPods)
× totalWeight) as a uint32, where finalTrafficPods equals targetPods after
the successful patches. -/
theorem C2_achieved_weights_amended (p : PodLabelShifter) (cluster : String) (services : List Service)
    (allPods : List Pod) (rws : List (String × Nat)) (svc : Service) (tsel : Labels) (out : SyncOutcome)
    (hrw : p.clusterReleaseWeights.lookup cluster = some rws)
    (hsvc : prodServices p.appName services = [svc])
    (hsel : svc.selector = some tsel)
    (hok : SyncCluster p cluster services allPods = .ok out) :
    out.achievedWeights
      = rws.map (predictedAchieved tsel allPods (appPods p.appName allPods).length (totalWeightOf rws)) := by
  rw [SyncCluster_eq p cluster services allPods rws svc tsel hrw hsvc hsel] at hok
  injection hok with hout
  rw [← hout]
  exact syncReleases_achievedWeights _ _ _ _ _

/-- C2 witness: the amended claim at the counterexample input, whose single
release is already at target and reports its requested weight 50. -/
theorem C2_witness :
    (⟨[("r", 50)], [], []⟩ : SyncOutcome).achievedWeights
      = [("r", 50)].map (predictedAchieved [("role", "prod")]
          [⟨"p1", [(AppLabel, "a"), (ReleaseLabel, "r"), ("role", "prod")]⟩, ⟨"p2", [(AppLabel, "a")]⟩]
          (appPods "a"
            [⟨"p1", [(AppLabel, "a"), (ReleaseLabel, "r"), ("role", "prod")]⟩,
              ⟨"p2", [(AppLabel, "a")]⟩]).length
          (totalWeightOf [("r", 50)])) :=
  C2_achieved_weights_amended ⟨"a", [("c1", [("r", 50)])]⟩ "c1"
    [⟨"s", [(AppLabel, "a"), (LBLabel, LBForProduction)], some [("role", "prod")]⟩]
    [⟨"p1", [(AppLabel, "a"), (ReleaseLabel, "r"), ("role", "prod")]⟩, ⟨"p2", [(AppLabel, "a")]⟩]
    [("r", 50)]
    ⟨"s", [(AppLabel, "a"), (LBLabel, LBForProduction)], some [("role", "prod")]⟩
    [("role", "prod")]
    ⟨[("r", 50)], [], []⟩
    rfl
    (by decide)
    rfl
    (by simp [SyncCluster, prodServices, appPods, totalWeightOf, u32add, u32Mod,
      syncReleases, releasePodsOf, trafficPodsOf, idlePodsOf, getsTraffic,
      calculateReleasePodTarget_eval, achievedWeight_eval,
      AppLabel, ReleaseLabel, LBLabel, LBForProduction, List.lookup, List.filter, List.all])

/-- Lookup in a release map after bumping one key. -/
theorem lookup_bumpRelease (ws : List (String × Nat)) (r : String) (w : Nat) (r' : String) :
    (bumpRelease ws r w).lookup r'
      = if r' = r then some (u32add ((ws.lookup r').getD 0) w) else ws.lookup r' := by
  induction ws with
  | nil =>
    by_cases h : r' = r
    · have hb : (r' == r) = true := beq_iff_eq.mpr h
      simp [bumpRelease, List.lookup, hb, h]
    · have hb : (r' == r) = false := beq_eq_false_iff_ne.mpr h
      simp [bumpRelease, List.lookup, hb, h]
  | cons q rest ih =>
    obtain ⟨a, x⟩ := q
    by_cases ha : a = r
    · by_cases h : r' = a
      · have hb : (r' == a) = true := beq_iff_eq.mpr h
        have hr : r' = r := ha ▸ h
        simp [bumpRelease, List.lookup, ha, hb, hr]
      · have hb : (r' == a) = false := beq_eq_false_iff_ne.mpr h
        have hr : ¬ r' = r := fun hh => h (hh.trans ha.symm)
        have hbr : (r' == r) = false := beq_eq_false_iff_ne.mpr hr
        simp [bumpRelease, List.lookup, ha, hb, hbr, hr]
    · by_cases h : r' = a
      · have hb : (r' == a) = true := beq_iff_eq.mpr h
        have hr : ¬ r' = r := fun hh => ha ((h.symm.trans hh) ▸ rfl)
        simp [bumpRelease, List.lookup, ha, hb, hr]
      · have hb : (r' == a) = false := beq_eq_false_iff_ne.mpr h
        simp [bumpRelease, List.lookup, ha, hb, ih]

/-- Lookup in the two-level table after bumping one cell. -/
theorem lookupWeight_bumpCluster (m : ClusterReleaseWeights) (c r : String) (w : Nat) (c' r' : String) :
    lookupWeight (bumpCluster m c r w) c' r'
      = if c' = c ∧ r' = r then some (u32add ((lookupWeight m c' r').getD 0) w)
        else lookupWeight m c' r' := by
  induction m with
  | nil =>
    by_cases hc : c' = c
    · have hbc : (c' == c) = true := beq_iff_eq.mpr hc
      by_cases hr : r' = r
      · have hbr : (r' == r) = true := beq_iff_eq.mpr hr
        simp [bumpCluster, lookupWeight, List.lookup, bumpRelease, hbc, hbr, hc, hr]
      · have hbr : (r' == r) = false := beq_eq_false_iff_ne.mpr hr
        simp [bumpCluster, lookupWeight, List.lookup, bumpRelease, hbc, hbr, hc, hr]
    · have hbc : (c' == c) = false := beq_eq_false_iff_ne.mpr hc
      simp [bumpCluster, lookupWeight, List.lookup, hbc, hc]
  | cons q rest ih =>
    obtain ⟨a, ws⟩ := q
    by_cases ha : a = c
    · by_cases hc : c' = a
      · have hbca : (c' == a) = true := beq_iff_eq.mpr hc
        have hc2 : c' = c := hc.trans ha
        have hbca2 : (c == a) = true := beq_iff_eq.mpr ha.symm
        simp [bumpCluster, lookupWeight, List.lookup, if_pos ha, hbca, hbca2, hc2, lookup_bumpRelease]
      · have hbca : (c' == a) = false := beq_eq_false_iff_ne.mpr hc
        have hc2 : ¬ c' = c := fun hh => hc (hh.trans ha.symm)
        simp [bumpCluster, lookupWeight, List.lookup, if_pos ha, hbca, hc2]
    · by_cases hc : c' = a
      · have hbca : (c' == a) = true := beq_iff_eq.mpr hc
        have hc2 : ¬ c' = c := fun hh => ha (hc.symm.trans hh)
        simp [bumpCluster, lookupWeight, List.lookup, if_neg ha, hbca, hc2]
      · have hbca : (c' == a) = false := beq_eq_false_iff_ne.mpr hc
        simp only [bumpCluster, if_neg ha]
        have e1 : lookupWeight ((a, ws) :: bumpCluster rest c r w) c' r'
            = lookupWeight (bumpCluster rest c r w) c' r' := by
          simp [lookupWeight, List.lookup, hbca]
        have e2 : lookupWeight ((a, ws) :: rest) c' r' = lookupWeight rest c' r' := by
          simp [lookupWeight, List.lookup, hbca]
        rw [e1, ih, e2]

/-- Folding a weight list on top of a present cell. -/
theorem applyEntries_some (v : Nat) (ws : List Nat) :
    applyEntries (some v) ws = some (ws.foldl u32add v) := by
  induction ws generalizing v with
  | nil => rfl
  | cons w rest ih =>
    simp only [applyEntries, List.foldl_cons, Option.getD_some] at *
    exact ih (u32add v w)

/-- Folding a weight list on top of an absent cell. -/
theorem applyEntries_none (ws : List Nat) :
    applyEntries none ws = if ws.isEmpty then none else some (ws.foldl u32add 0) := by
  cases ws with
  | nil => rfl
  | cons w rest =>
    simp only [applyEntries, List.foldl_cons, Option.getD_none, List.isEmpty_cons]
    rw [← applyEntries]
    simp [applyEntries_some]

/-- Lookup in the table after adding one TrafficTarget's cluster entries. -/
theorem lookupWeight_addClusters (m : ClusterReleaseWeights) (release : String) (cls : List TTClusterSpec) (c r : String) :
    lookupWeight (addClusters m release cls) c r
      = if r = release then
          applyEntries (lookupWeight m c r) ((cls.filter fun e => e.name = c).map fun e => e.weight)
        else lookupWeight m c r := by
  induction cls generalizing m with
  | nil =>
    simp [addClusters, applyEntries]
  | cons e rest ih =>
    simp only [addClusters]
    rw [ih]
    by_cases hr : r = release
    · rw [if_pos hr, if_pos hr, lookupWeight_bumpCluster]
      by_cases he : e.name = c
      · have hf : (e :: rest).filter (fun x => x.name = c) = e :: rest.filter fun x => x.name = c := by
          simp [List.filter_cons, he]
        rw [hf]
        have hcc : c = e.name ∧ r = release := ⟨he.symm, hr⟩
        rw [if_pos hcc]
        simp [applyEntries]
      · have hf : (e :: rest).filter (fun x => x.name = c) = rest.filter fun x => x.name = c := by
          simp [List.filter_cons, he]
        rw [hf]
        have hcc : ¬ (c = e.name ∧ r = release) := fun hh => he hh.1.symm
        rw [if_neg hcc]
    · rw [if_neg hr, if_neg hr, lookupWeight_bumpCluster]
      have hcc : ¬ (c = e.name ∧ r = release) := fun hh => hr hh.2
      rw [if_neg hcc]

/-- Success of the buildClusterReleaseWeights loop: every remaining target is
labelled, the remaining labels are distinct, and none is already seen. -/
theorem bcrwGo_isOk_iff (acc : ClusterReleaseWeights) (seen : List (String × TrafficTarget)) (rest : List TrafficTarget) :
    (bcrwGo acc seen rest).isOk = true ↔
      ((∀ tt ∈ rest, (tt.labels.lookup ReleaseLabel).isSome = true) ∧
        (releaseLabels rest).Nodup ∧
        (∀ r ∈ releaseLabels rest, seen.lookup r = none)) := by
  induction rest generalizing acc seen with
  | nil =>
    simp [bcrwGo, Except.isOk, Except.toBool, releaseLabels]
  | cons tt rest ih =>
    cases hl : tt.labels.lookup ReleaseLabel with
    | none =>
      simp only [bcrwGo, hl]
      constructor
      · intro h
        simp [Except.isOk, Except.toBool] at h
      · intro ⟨h1, _, _⟩
        have := h1 tt (List.mem_cons_self _ _)
        rw [hl] at this
        exact absurd this (by simp)
    | some r0 =>
      have hlabels : releaseLabels (tt :: rest) = r0 :: releaseLabels rest := by
        simp [releaseLabels, List.filterMap_cons, hl]
      cases hs : seen.lookup r0 with
      | some existing =>
        simp only [bcrwGo, hl, hs]
        constructor
        · intro h
          simp [Except.isOk, Except.toBool] at h
        · intro ⟨_, _, h3⟩
          have := h3 r0 (by rw [hlabels]; exact List.mem_cons_self _ _)
          rw [hs] at this
          exact absurd this (by simp)
      | none =>
        simp only [bcrwGo, hl, hs]
        rw [ih]
        constructor
        · intro ⟨h1, h2, h3⟩
          refine ⟨?_, ?_, ?_⟩
          · intro x hx
            rcases List.mem_cons.mp hx with hx | hx
            · rw [hx, hl]; rfl
            · exact h1 x hx
          · rw [hlabels]
            refine List.nodup_cons.mpr ⟨?_, h2⟩
            intro hmem
            have := h3 r0 hmem
            simp [List.lookup, beq_self_eq_true] at this
          · intro r hr
            rw [hlabels] at hr
            rcases List.mem_cons.mp hr with hr | hr
            · rw [hr]; exact hs
            · have := h3 r hr
              by_cases hrr : r = r0
              · rw [hrr]; exact hs
              · have hb : (r == r0) = false := beq_eq_false_iff_ne.mpr hrr
                simp only [List.lookup, hb] at this
                exact this
        · intro ⟨h1, h2, h3⟩
          rw [hlabels] at h2 h3
          refine ⟨fun x hx => h1 x (List.mem_cons_of_mem _ hx), (List.nodup_cons.mp h2).2, ?_⟩
          intro r hr
          have hrm := h3 r (List.mem_cons_of_mem _ hr)
          have hrr : ¬ r = r0 := fun hh => (List.nodup_cons.mp h2).1 (hh ▸ hr)
          have hb : (r == r0) = false := beq_eq_false_iff_ne.mpr hrr
          simp only [List.lookup, hb]
          exact hrm

/-- Table lookups after a successful run of the buildClusterReleaseWeights
loop: the cell for (c, r) is the input cell when no remaining target carries
label r, and otherwise the input cell with that target's entries for c folded
on top. -/
theorem bcrwGo_lookup (rest : List TrafficTarget) :
    ∀ (acc : ClusterReleaseWeights) (seen : List (String × TrafficTarget)) (m : ClusterReleaseWeights),
      bcrwGo acc seen rest = .ok m → ∀ c r,
        lookupWeight m c r =
          match rest.find? (fun tt => tt.labels.lookup ReleaseLabel == some r) with
          | none => lookupWeight acc c r
          | some tt => applyEntries (lookupWeight acc c r) ((clusterEntries tt c).map fun e => e.weight) := by
  induction rest with
  | nil =>
    intro acc seen m h c r
    simp only [bcrwGo, Except.ok.injEq] at h
    rw [← h]
    rfl
  | cons tt rest ih =>
    intro acc seen m h c r
    cases hl : tt.labels.lookup ReleaseLabel with
    | none =>
      simp only [bcrwGo, hl] at h
      exact Except.noConfusion h
    | some r0 =>
      cases hs : seen.lookup r0 with
      | some existing =>
        simp only [bcrwGo, hl, hs] at h
        exact Except.noConfusion h
      | none =>
        simp only [bcrwGo, hl, hs] at h
        have hok : (bcrwGo (addClusters acc r0 tt.clusters) ((r0, tt) :: seen) rest).isOk = true := by
          rw [h]
          rfl
        obtain ⟨-, -, h3⟩ := (bcrwGo_isOk_iff _ _ _).mp hok
        have hnotin : r0 ∉ releaseLabels rest := by
          intro hmem
          have := h3 r0 hmem
          simp [List.lookup] at this
        by_cases hrr : r0 = r
        · rw [List.find?_cons_of_pos _ (by simp [hl, hrr])]
          have hrest : rest.find? (fun x => x.labels.lookup ReleaseLabel == some r) = none := by
            cases hf : rest.find? (fun x => x.labels.lookup ReleaseLabel == some r) with
            | none => rfl
            | some tt' =>
              have hmem := List.mem_of_find?_eq_some hf
              have hp := List.find?_some hf
              rw [beq_iff_eq] at hp
              have : r0 ∈ releaseLabels rest := by
                rw [hrr]
                exact List.mem_filterMap.mpr ⟨tt', hmem, hp⟩
              exact absurd this hnotin
          have hm := ih (addClusters acc r0 tt.clusters) ((r0, tt) :: seen) m h c r
          rw [hrest] at hm
          rw [hm, lookupWeight_addClusters, if_pos hrr.symm]
          simp only [clusterEntries]
        · rw [List.find?_cons_of_neg _ (by simp [hl, hrr])]
          have hm := ih (addClusters acc r0 tt.clusters) ((r0, tt) :: seen) m h c r
          have hacc : lookupWeight (addClusters acc r0 tt.clusters) c r = lookupWeight acc c r := by
            rw [lookupWeight_addClusters]
            exact if_neg fun hh => hrr hh.symm
          rw [hm]
          cases hf : rest.find? (fun x => x.labels.lookup ReleaseLabel == some r) with
          | none => exact hacc
          | some tt' => rw [hacc]

/-- After a successful buildClusterReleaseWeights, every cell of the table is
the specWeight of the input. -/
theorem buildClusterReleaseWeights_lookup (tts : List TrafficTarget) (m : ClusterReleaseWeights)
    (h : buildClusterReleaseWeights tts = .ok m) (c r : String) :
    lookupWeight m c r = specWeight tts c r := by
  have hm := bcrwGo_lookup tts [] [] m h c r
  rw [hm]
  unfold specWeight
  cases hf : tts.find? (fun tt => tt.labels.lookup ReleaseLabel == some r) with
  | none => rfl
  | some tt =>
    have hnil : lookupWeight ([] : ClusterReleaseWeights) c r = none := rfl
    simp only [hnil, applyEntries_none]
    cases hce : clusterEntries tt c with
    | nil => simp
    | cons e erest => simp

/-- buildClusterReleaseWeights succeeds exactly on well-formed input. -/
theorem buildClusterReleaseWeights_isOk_iff (tts : List TrafficTarget) :
    (buildClusterReleaseWeights tts).isOk = true ↔ BCRWWellFormed tts := by
  rw [buildClusterReleaseWeights, bcrwGo_isOk_iff]
  unfold BCRWWellFormed
  have hnil : ∀ r ∈ releaseLabels tts, List.lookup r ([] : List (String × TrafficTarget)) = none :=
    fun r _ => rfl
  constructor
  · intro ⟨h1, h2, _⟩
    exact ⟨h1, h2⟩
  · intro ⟨h1, h2⟩
    exact ⟨h1, h2, hnil⟩

/-- C4 (amended): buildClusterReleaseWeights returns an error if and only if
some input TrafficTarget lacks a release label or two inputs carry the same
release label; otherwise the table maps (cluster, release) to the uint32
(wrapping modulo 2^32) sum of that cluster's entries in the release's
TrafficTarget. -/
theorem C4_build_weights_amended (tts : List TrafficTarget) :
    ((∃ e, buildClusterReleaseWeights tts = .error e) ↔ ¬ BCRWWellFormed tts) ∧
      ∀ m, buildClusterReleaseWeights tts = .ok m →
        ∀ c r, lookupWeight m c r = specWeight tts c r := by
  constructor
  · rw [← buildClusterReleaseWeights_isOk_iff]
    cases hb : buildClusterReleaseWeights tts <;>
      simp [Except.isOk, Except.toBool]
  · intro m hm c r
    exact buildClusterReleaseWeights_lookup tts m hm c r

/-- C4 counterexample: one TrafficTarget whose cluster c appears twice with
weight 2^31; the table cell wraps to 0 in uint32 arithmetic while the
mathematical sum of the entries is 2^32. -/
theorem C4_counterexample :
    buildClusterReleaseWeights
        [⟨"tt1", "ns", [(ReleaseLabel, "r")], [⟨"c", 2147483648⟩, ⟨"c", 2147483648⟩]⟩]
      = .ok [("c", [("r", 0)])] ∧
      ((clusterEntries ⟨"tt1", "ns", [(ReleaseLabel, "r")], [⟨"c", 2147483648⟩, ⟨"c", 2147483648⟩]⟩
          "c").map fun e => e.weight).sum = 4294967296 ∧
      lookupWeight [("c", [("r", 0)])] "c" "r" = some 0 ∧
      (0 : Nat) ≠ 4294967296 := by
  decide

/-- C4 witness: the amended claim instantiated on a well-formed two-target
input. -/
theorem C4_witness :
    ((∃ e, buildClusterReleaseWeights
        [⟨"tx", "ns", [(ReleaseLabel, "rx")], [⟨"c", 1⟩]⟩,
          ⟨"ty", "ns", [(ReleaseLabel, "ry")], [⟨"c", 2⟩]⟩] = .error e) ↔
      ¬ BCRWWellFormed
        [⟨"tx", "ns", [(ReleaseLabel, "rx")], [⟨"c", 1⟩]⟩,
          ⟨"ty", "ns", [(ReleaseLabel, "ry")], [⟨"c", 2⟩]⟩]) ∧
      ∀ m, buildClusterReleaseWeights
          [⟨"tx", "ns", [(ReleaseLabel, "rx")], [⟨"c", 1⟩]⟩,
            ⟨"ty", "ns", [(ReleaseLabel, "ry")], [⟨"c", 2⟩]⟩] = .ok m →
        ∀ c r, lookupWeight m c r = specWeight
          [⟨"tx", "ns", [(ReleaseLabel, "rx")], [⟨"c", 1⟩]⟩,
            ⟨"ty", "ns", [(ReleaseLabel, "ry")], [⟨"c", 2⟩]⟩] c r :=
  C4_build_weights_amended _

/-- List.find? computes the head of the filtered list. -/
theorem find?_eq_head?_filter {α : Type} (p : α → Bool) (l : List α) :
    l.find? p = (l.filter p).head? := by
  induction l with
  | nil => rfl
  | cons a l ih =>
    by_cases h : p a
    · rw [List.find?_cons_of_pos _ h, List.filter_cons_of_pos h]
      rfl
    · rw [List.find?_cons_of_neg _ h, List.filter_cons_of_neg h, ih]

/-- Permutations of lists with at most one element are equal. -/
theorem perm_eq_of_length_le_one {α : Type} {l1 l2 : List α} (h : l1.Perm l2)
    (hl : l1.length ≤ 1) : l1 = l2 := by
  cases l1 with
  | nil => exact (h.symm.eq_nil).symm
  | cons a l1' =>
    cases l1' with
    | nil => exact (List.perm_singleton.mp h.symm).symm
    | cons b l1'' => simp at hl

/-- find? is invariant under permutation when at most one element matches. -/
theorem find?_eq_of_perm_of_subsingleton {α : Type} (p : α → Bool) {l1 l2 : List α}
    (h : l1.Perm l2) (hlen : (l1.filter p).length ≤ 1) :
    l1.find? p = l2.find? p := by
  rw [find?_eq_head?_filter, find?_eq_head?_filter,
    perm_eq_of_length_le_one (h.filter p) hlen]

/-- Release labels of a list whose members all carry the label r. -/
theorem releaseLabels_of_constant (r : String) (l : List TrafficTarget)
    (h : ∀ tt ∈ l, tt.labels.lookup ReleaseLabel = some r) :
    releaseLabels l = List.replicate l.length r := by
  induction l with
  | nil => rfl
  | cons tt rest ih =>
    have htt := h tt (List.mem_cons_self _ _)
    simp only [releaseLabels, List.filterMap_cons, htt, List.length_cons, List.replicate_succ]
    exact congrArg (r :: ·) (ih fun x hx => h x (List.mem_cons_of_mem _ hx))

/-- On well-formed input, at most one TrafficTarget carries a given release
label. -/
theorem filter_label_length_le_one (tts : List TrafficTarget) (hwf : BCRWWellFormed tts) (r : String) :
    (tts.filter fun tt => tt.labels.lookup ReleaseLabel == some r).length ≤ 1 := by
  have hall : ∀ tt ∈ tts.filter fun tt => tt.labels.lookup ReleaseLabel == some r,
      tt.labels.lookup ReleaseLabel = some r := by
    intro tt htt
    have := (List.mem_filter.mp htt).2
    exact beq_iff_eq.mp this
  have hrep := releaseLabels_of_constant r _ hall
  have hsub : List.Sublist
      (releaseLabels (tts.filter fun tt => tt.labels.lookup ReleaseLabel == some r))
      (releaseLabels tts) :=
    List.Sublist.filterMap _ (List.filter_sublist _)
  have hnd := List.Nodup.sublist hsub hwf.2
  rw [hrep] at hnd
  exact List.nodup_replicate.mp hnd

/-- specWeight is invariant under permutation of well-formed input. -/
theorem specWeight_perm (l1 l2 : List TrafficTarget) (h : l1.Perm l2)
    (hwf : BCRWWellFormed l1) (c r : String) :
    specWeight l1 c r = specWeight l2 c r := by
  unfold specWeight
  rw [find?_eq_of_perm_of_subsingleton _ h (filter_label_length_le_one l1 hwf r)]

/-- Well-formedness is invariant under permutation. -/
theorem BCRWWellFormed_perm {l1 l2 : List TrafficTarget} (h : l1.Perm l2) :
    BCRWWellFormed l1 ↔ BCRWWellFormed l2 := by
  unfold BCRWWellFormed
  constructor
  · intro ⟨h1, h2⟩
    exact ⟨fun tt htt => h1 tt (h.mem_iff.mpr htt), ((h.filterMap _).nodup_iff).mp h2⟩
  · intro ⟨h1, h2⟩
    exact ⟨fun tt htt => h1 tt (h.mem_iff.mp htt), ((h.filterMap _).nodup_iff).mpr h2⟩

/-- C5 (amended): buildClusterReleaseWeights succeeds on one ordering iff it
succeeds on any permutation, and the tables of two successful orderings agree
on every cell; the error values themselves may differ between orderings. -/
theorem C5_perm_amended (l1 l2 : List TrafficTarget) (hperm : l1.Perm l2) :
    ((buildClusterReleaseWeights l1).isOk = (buildClusterReleaseWeights l2).isOk) ∧
      ∀ m1 m2, buildClusterReleaseWeights l1 = .ok m1 → buildClusterReleaseWeights l2 = .ok m2 →
        ∀ c r, lookupWeight m1 c r = lookupWeight m2 c r := by
  constructor
  · rw [Bool.eq_iff_iff, buildClusterReleaseWeights_isOk_iff, buildClusterReleaseWeights_isOk_iff]
    exact BCRWWellFormed_perm hperm
  · intro m1 m2 hm1 hm2 c r
    have hwf : BCRWWellFormed l1 := by
      rw [← buildClusterReleaseWeights_isOk_iff, hm1]
      rfl
    rw [buildClusterReleaseWeights_lookup l1 m1 hm1, buildClusterReleaseWeights_lookup l2 m2 hm2]
    exact specWeight_perm l1 l2 hperm hwf c r

/-- C5 counterexample: two TrafficTargets both missing the release label.
Swapping them swaps which one the first error names, so the two outcomes are
not equal, though both are errors. -/
theorem C5_counterexample :
    List.Perm [(⟨"ttA", "ns", [], []⟩ : TrafficTarget), ⟨"ttB", "ns", [], []⟩]
        [(⟨"ttB", "ns", [], []⟩ : TrafficTarget), ⟨"ttA", "ns", [], []⟩] ∧
      buildClusterReleaseWeights [(⟨"ttA", "ns", [], []⟩ : TrafficTarget), ⟨"ttB", "ns", [], []⟩]
        ≠ buildClusterReleaseWeights [(⟨"ttB", "ns", [], []⟩ : TrafficTarget), ⟨"ttA", "ns", [], []⟩] :=
  ⟨List.Perm.swap _ _ _, by decide⟩

/-- C5 witness: the amended claim on a concrete two-target swap. -/
theorem C5_witness :
    ((buildClusterReleaseWeights
        [⟨"tx", "ns", [(ReleaseLabel, "rx")], [⟨"c", 1⟩]⟩,
          ⟨"ty", "ns", [(ReleaseLabel, "ry")], [⟨"c", 2⟩]⟩]).isOk
      = (buildClusterReleaseWeights
        [⟨"ty", "ns", [(ReleaseLabel, "ry")], [⟨"c", 2⟩]⟩,
          ⟨"tx", "ns", [(ReleaseLabel, "rx")], [⟨"c", 1⟩]⟩]).isOk) ∧
      ∀ m1 m2,
        buildClusterReleaseWeights
          [⟨"tx", "ns", [(ReleaseLabel, "rx")], [⟨"c", 1⟩]⟩,
            ⟨"ty", "ns", [(ReleaseLabel, "ry")], [⟨"c", 2⟩]⟩] = .ok m1 →
        buildClusterReleaseWeights
          [⟨"ty", "ns", [(ReleaseLabel, "ry")], [⟨"c", 2⟩]⟩,
            ⟨"tx", "ns", [(ReleaseLabel, "rx")], [⟨"c", 1⟩]⟩] = .ok m2 →
        ∀ c r, lookupWeight m1 c r = lookupWeight m2 c r :=
  C5_perm_amended _ _ (List.Perm.swap _ _ _)

/-- Inserting a condition permutes with prepending it. -/
theorem insertCond_perm (c : ReleaseCondition) (l : List ReleaseCondition) :
    (insertCond c l).Perm (c :: l) := by
  induction l with
  | nil => exact List.Perm.refl _
  | cons d rest ih =>
    by_cases h : c.condType < d.condType
    · rw [insertCond, if_pos h]
    · rw [insertCond, if_neg h]
      exact (ih.cons d).trans (List.Perm.swap c d rest)

/-- sortConditions permutes its input. -/
theorem sortConditions_perm (l : List ReleaseCondition) :
    (sortConditions l).Perm l := by
  induction l with
  | nil => exact List.Perm.refl _
  | cons c rest ih =>
    exact (insertCond_perm c (sortConditions rest)).trans (ih.cons c)

/-- Inserting into a list sorted by condition type keeps it sorted. -/
theorem insertCond_sorted (c : ReleaseCondition) (l : List ReleaseCondition)
    (h : l.Pairwise fun a b => a.condType ≤ b.condType) :
    (insertCond c l).Pairwise fun a b => a.condType ≤ b.condType := by
  induction l with
  | nil => simp [insertCond]
  | cons d rest ih =>
    obtain ⟨hd, hrest⟩ := List.pairwise_cons.mp h
    by_cases hcd : c.condType < d.condType
    · rw [insertCond, if_pos hcd]
      refine List.Pairwise.cons ?_ h
      intro b hb
      rcases List.mem_cons.mp hb with hb | hb
      · rw [hb]
        exact le_of_lt hcd
      · exact le_trans (le_of_lt hcd) (hd b hb)
    · rw [insertCond, if_neg hcd]
      refine List.Pairwise.cons ?_ (ih hrest)
      intro b hb
      rcases List.mem_cons.mp ((insertCond_perm c rest).mem_iff.mp hb) with hb | hb
      · rw [hb]
        exact le_of_not_lt hcd
      · exact hd b hb

/-- sortConditions sorts by condition type. -/
theorem sortConditions_sorted (l : List ReleaseCondition) :
    (sortConditions l).Pairwise fun a b => a.condType ≤ b.condType := by
  induction l with
  | nil => exact List.Pairwise.nil
  | cons c rest ih => exact insertCond_sorted c (sortConditions rest) ih

/-- Sorting a list with pairwise distinct condition types yields a strictly
ascending list. -/
theorem sortConditions_invariant (l : List ReleaseCondition)
    (h : (l.map fun c => c.condType).Nodup) :
    ConditionsInvariant (sortConditions l) := by
  have hs := sortConditions_sorted l
  have hndm : ((sortConditions l).map fun c => c.condType).Nodup :=
    (((sortConditions_perm l).map _).nodup_iff).mpr h
  have hne : (sortConditions l).Pairwise fun a b => a.condType ≠ b.condType :=
    List.pairwise_map.mp hndm
  exact (hs.and hne).imp fun hab => lt_of_le_of_ne hab.1 hab.2

/-- The condition-type keys of a strictly ascending condition list are
distinct. -/
theorem invariant_nodup_keys {l : List ReleaseCondition} (h : ConditionsInvariant l) :
    (l.map fun c => c.condType).Nodup :=
  show (l.map fun c => c.condType).Pairwise (· ≠ ·) from
    List.pairwise_map.mpr (h.imp fun hab => ne_of_lt hab)

/-- filterOutCondition leaves no condition of the filtered type. -/
theorem filterOutCondition_not_mem (conds : List ReleaseCondition) (T : String) :
    ∀ c ∈ filterOutCondition conds T, c.condType ≠ T := by
  intro c hc
  have := (List.mem_filter.mp hc).2
  simpa using this

/-- filterOutCondition preserves the invariant. -/
theorem filterOutCondition_invariant {conds : List ReleaseCondition} (T : String)
    (h : ConditionsInvariant conds) :
    ConditionsInvariant (filterOutCondition conds T) :=
  List.Pairwise.sublist (List.filter_sublist _) h

/-- Rebuilding the condition list for a written condition preserves the
invariant. -/
theorem set_result_invariant (conds : List ReleaseCondition) (c' : ReleaseCondition)
    (h : ConditionsInvariant conds) :
    ConditionsInvariant (sortConditions (filterOutCondition conds c'.condType ++ [c'])) := by
  apply sortConditions_invariant
  rw [List.map_append, List.nodup_append]
  refine ⟨invariant_nodup_keys (filterOutCondition_invariant _ h), List.nodup_singleton _, ?_⟩
  intro a ha hb
  simp only [List.map_cons, List.map_nil, List.mem_singleton] at hb
  obtain ⟨x, hx, hxa⟩ := List.mem_map.mp ha
  have hT := filterOutCondition_not_mem conds c'.condType x hx
  exact hT (hxa ▸ hb)

/-- SetReleaseCondition preserves the invariant. -/
theorem SetReleaseCondition_invariant (status : ReleaseStatus) (cond : ReleaseCondition)
    (h : ConditionsInvariant status.conditions) :
    ConditionsInvariant (SetReleaseCondition status cond).1.conditions := by
  simp only [SetReleaseCondition]
  split
  · exact h
  · exact set_result_invariant status.conditions _ h

/-- RemoveReleaseCondition preserves the invariant. -/
theorem RemoveReleaseCondition_invariant (status : ReleaseStatus) (T : String)
    (h : ConditionsInvariant status.conditions) :
    ConditionsInvariant (RemoveReleaseCondition status T).conditions :=
  filterOutCondition_invariant T h

/-- Every operation preserves the invariant. -/
theorem applyCondOp_invariant (status : ReleaseStatus) (op : CondOp)
    (h : ConditionsInvariant status.conditions) :
    ConditionsInvariant (applyCondOp status op).conditions := by
  cases op with
  | set c => exact SetReleaseCondition_invariant status c h
  | remove t => exact RemoveReleaseCondition_invariant status t h

/-- Every operation sequence preserves the invariant. -/
theorem applyCondOps_invariant (ops : List CondOp) :
    ∀ status : ReleaseStatus, ConditionsInvariant status.conditions →
      ConditionsInvariant (applyCondOps status ops).conditions := by
  induction ops with
  | nil => exact fun status h => h
  | cons op rest ih =>
    intro status h
    exact ih _ (applyCondOp_invariant status op h)

/-- C7: after every sequence of Set and Remove operations starting from the
empty condition list, the condition list holds at most one condition per type
and is sorted strictly ascending by type. -/
theorem C7_conditions_sorted_unique (ops : List CondOp) :
    (((applyCondOps ⟨[]⟩ ops).conditions.map fun c => c.condType).Nodup) ∧
      (applyCondOps ⟨[]⟩ ops).conditions.Pairwise (fun a b => a.condType < b.condType) := by
  have hinv := applyCondOps_invariant ops ⟨[]⟩ List.Pairwise.nil
  exact ⟨invariant_nodup_keys hinv, hinv⟩

/-- Reading the written condition back from the rebuilt list. -/
theorem get_set_result (conds : List ReleaseCondition) (T : String) (c : ReleaseCondition)
    (hc : c.condType = T) :
    GetReleaseCondition ⟨sortConditions (filterOutCondition conds T ++ [c])⟩ T = some c := by
  unfold GetReleaseCondition
  rw [find?_eq_head?_filter]
  have hfilter : (filterOutCondition conds T).filter (fun x => x.condType == T) = [] := by
    rw [List.filter_eq_nil_iff]
    intro a ha
    have := filterOutCondition_not_mem conds T a ha
    simpa using this
  have hsingle : (filterOutCondition conds T ++ [c]).filter (fun x => x.condType == T) = [c] := by
    rw [List.filter_append, hfilter]
    simp [hc]
  have hperm := (sortConditions_perm (filterOutCondition conds T ++ [c])).filter
    (fun x => x.condType == T)
  rw [hsingle] at hperm
  rw [List.perm_singleton.mp hperm]
  rfl

/-- C6: writing back the stored condition of a type is a no-op with an empty
diff (so LastTransitionTime does not advance), and a write that changes only
reason or message (same status) preserves the stored LastTransitionTime. -/
theorem C6_condition_roundtrip_and_time (status : ReleaseStatus) (T : String)
    (c0 : ReleaseCondition) (hget : GetReleaseCondition status T = some c0)
    (cEq : ReleaseCondition) (het : cEq.condType = T) (hes : cEq.status = c0.status)
    (her : cEq.reason = c0.reason) (hem : cEq.message = c0.message)
    (cNew : ReleaseCondition) (ht : cNew.condType = T) (hs : cNew.status = c0.status)
    (hd : cNew.reason ≠ c0.reason ∨ cNew.message ≠ c0.message) :
    SetReleaseCondition status cEq = (status, none) ∧
      GetReleaseCondition (SetReleaseCondition status cNew).1 T
        = some { cNew with lastTransitionTime := c0.lastTransitionTime } := by
  have hc0T : c0.condType = T := by
    have hh : status.conditions.find? (fun c => c.condType == T) = some c0 := hget
    have hb := List.find?_some hh
    exact beq_iff_eq.mp hb
  constructor
  · have hgc : GetReleaseCondition status cEq.condType = some c0 := by rw [het]; exact hget
    have hempty : (⟨some c0, some cEq⟩ : ReleaseConditionDiff).IsEmpty = true := by
      have h1 : (c0.condType == cEq.condType) = true :=
        beq_iff_eq.mpr (by rw [het, hc0T])
      have h2 : (c0.status == cEq.status) = true := beq_iff_eq.mpr hes.symm
      have h3 : (c0.reason == cEq.reason) = true := beq_iff_eq.mpr her.symm
      have h4 : (c0.message == cEq.message) = true := beq_iff_eq.mpr hem.symm
      simp [ReleaseConditionDiff.IsEmpty, h1, h2, h3, h4]
    simp only [SetReleaseCondition, hgc, hempty, if_true]
  · have hgc : GetReleaseCondition status cNew.condType = some c0 := by rw [ht]; exact hget
    have hnonempty : (⟨some c0, some cNew⟩ : ReleaseConditionDiff).IsEmpty = false := by
      rcases hd with hd | hd
      · have hb : (c0.reason == cNew.reason) = false :=
          beq_eq_false_iff_ne.mpr fun hh => hd hh.symm
        simp [ReleaseConditionDiff.IsEmpty, hb]
      · have hb : (c0.message == cNew.message) = false :=
          beq_eq_false_iff_ne.mpr fun hh => hd hh.symm
        simp [ReleaseConditionDiff.IsEmpty, hb]
    have hst : (c0.status == cNew.status) = true := beq_iff_eq.mpr hs.symm
    simp only [SetReleaseCondition, hgc, hnonempty, Bool.false_eq_true, if_false, hst, if_true]
    rw [ht]
    exact get_set_result status.conditions T _ rfl

/-- C6 witness: a concrete status holding a Ready condition; re-writing it is
a no-op, and a reason change preserves the stored transition time 5. -/
theorem C6_witness :
    SetReleaseCondition ⟨[⟨"Ready", "True", 5, "r0", "m0"⟩]⟩ ⟨"Ready", "True", 7, "r0", "m0"⟩
        = (⟨[⟨"Ready", "True", 5, "r0", "m0"⟩]⟩, none) ∧
      GetReleaseCondition
          (SetReleaseCondition ⟨[⟨"Ready", "True", 5, "r0", "m0"⟩]⟩
            ⟨"Ready", "True", 9, "r1", "m0"⟩).1 "Ready"
        = some ⟨"Ready", "True", 5, "r1", "m0"⟩ :=
  C6_condition_roundtrip_and_time ⟨[⟨"Ready", "True", 5, "r0", "m0"⟩]⟩ "Ready"
    ⟨"Ready", "True", 5, "r0", "m0"⟩ (by decide)
    ⟨"Ready", "True", 7, "r0", "m0"⟩ rfl rfl rfl rfl
    ⟨"Ready", "True", 9, "r1", "m0"⟩ rfl rfl (Or.inl (by decide))

/-- C8: TargetObjectsForRelease returns the three target objects if and only
if the release-label selector matches exactly one object of each kind (the
returned objects being exactly those matches); otherwise it returns the first
UnexpectedObjectCountFromSelector error, whose kind is the first of
installation, traffic, capacity to fail the count check. -/
theorem C8_target_objects (relName : String) (env : TargetEnv) :
    (∀ it tt ct, TargetObjectsForRelease relName env = .ok (it, tt, ct) ↔
      (env.installationTargets.filter (matchesRelease relName) = [it] ∧
        env.trafficTargets.filter (matchesRelease relName) = [tt] ∧
        env.capacityTargets.filter (matchesRelease relName) = [ct])) ∧
      (∀ e, TargetObjectsForRelease relName env = .error e →
        e.expected = 1 ∧
        ((e.kind = .installationTarget ∧
            (env.installationTargets.filter (matchesRelease relName)).length ≠ 1) ∨
          (e.kind = .trafficTarget ∧
            (env.installationTargets.filter (matchesRelease relName)).length = 1 ∧
            (env.trafficTargets.filter (matchesRelease relName)).length ≠ 1) ∨
          (e.kind = .capacityTarget ∧
            (env.installationTargets.filter (matchesRelease relName)).length = 1 ∧
            (env.trafficTargets.filter (matchesRelease relName)).length = 1 ∧
            (env.capacityTargets.filter (matchesRelease relName)).length ≠ 1))) := by
  by_cases h1 : (env.installationTargets.filter (matchesRelease relName)).length = 1
  · by_cases h2 : (env.trafficTargets.filter (matchesRelease relName)).length = 1
    · by_cases h3 : (env.capacityTargets.filter (matchesRelease relName)).length = 1
      · obtain ⟨a1, ha1⟩ := List.length_eq_one.mp h1
        obtain ⟨a2, ha2⟩ := List.length_eq_one.mp h2
        obtain ⟨a3, ha3⟩ := List.length_eq_one.mp h3
        constructor
        · intro it tt ct
          constructor
          · intro hok
            simp [TargetObjectsForRelease, h1, h2, h3, ha1, ha2, ha3] at hok
            rw [ha1, ha2, ha3, hok.1, hok.2.1, hok.2.2]
            exact ⟨rfl, rfl, rfl⟩
          · intro ⟨hA, hB, hC⟩
            simp [TargetObjectsForRelease, hA, hB, hC]
        · intro e he
          simp [TargetObjectsForRelease, h1, h2, h3] at he
      · constructor
        · intro it tt ct
          constructor
          · intro hok
            simp [TargetObjectsForRelease, h1, h2, h3] at hok
          · intro ⟨hA, hB, hC⟩
            rw [hC] at h3
            simp at h3
        · intro e he
          simp [TargetObjectsForRelease, h1, h2, h3] at he
          rw [← he]
          exact ⟨rfl, Or.inr (Or.inr ⟨rfl, h1, h2, h3⟩)⟩
    · constructor
      · intro it tt ct
        constructor
        · intro hok
          simp [TargetObjectsForRelease, h1, h2] at hok
        · intro ⟨hA, hB, hC⟩
          rw [hB] at h2
          simp at h2
      · intro e he
        simp [TargetObjectsForRelease, h1, h2] at he
        rw [← he]
        exact ⟨rfl, Or.inr (Or.inl ⟨rfl, h1, h2⟩)⟩
  · constructor
    · intro it tt ct
      constructor
      · intro hok
        simp [TargetObjectsForRelease, h1] at hok
      · intro ⟨hA, hB, hC⟩
        rw [hA] at h1
        simp at h1
    · intro e he
      simp [TargetObjectsForRelease, h1] at he
      rw [← he]
      exact ⟨rfl, Or.inl ⟨rfl, h1⟩⟩

/-- C8 witness: one object of each kind labelled for the release; the
resolver returns exactly them and no error is produced. -/
theorem C8_witness :
    (∀ it tt ct, TargetObjectsForRelease ("r")
        ⟨[⟨"i1", [(ReleaseLabel, "r")]⟩], [⟨"t1", [(ReleaseLabel, "r")]⟩],
          [⟨"c1", [(ReleaseLabel, "r")]⟩]⟩ = .ok (it, tt, ct) ↔
      ([⟨"i1", [(ReleaseLabel, "r")]⟩] : List TargetObj).filter (matchesRelease ("r")) = [it] ∧
        ([⟨"t1", [(ReleaseLabel, "r")]⟩] : List TargetObj).filter (matchesRelease ("r")) = [tt] ∧
        ([⟨"c1", [(ReleaseLabel, "r")]⟩] : List TargetObj).filter (matchesRelease ("r")) = [ct]) ∧
      (∀ e, TargetObjectsForRelease ("r")
          ⟨[⟨"i1", [(ReleaseLabel, "r")]⟩], [⟨"t1", [(ReleaseLabel, "r")]⟩],
            [⟨"c1", [(ReleaseLabel, "r")]⟩]⟩ = .error e →
        e.expected = 1 ∧
        ((e.kind = .installationTarget ∧
            (([⟨"i1", [(ReleaseLabel, "r")]⟩] : List TargetObj).filter
              (matchesRelease ("r"))).length ≠ 1) ∨
          (e.kind = .trafficTarget ∧
            (([⟨"i1", [(ReleaseLabel, "r")]⟩] : List TargetObj).filter
              (matchesRelease ("r"))).length = 1 ∧
            (([⟨"t1", [(ReleaseLabel, "r")]⟩] : List TargetObj).filter
              (matchesRelease ("r"))).length ≠ 1) ∨
          (e.kind = .capacityTarget ∧
            (([⟨"i1", [(ReleaseLabel, "r")]⟩] : List TargetObj).filter
              (matchesRelease ("r"))).length = 1 ∧
            (([⟨"t1", [(ReleaseLabel, "r")]⟩] : List TargetObj).filter
              (matchesRelease ("r"))).length = 1 ∧
            (([⟨"c1", [(ReleaseLabel, "r")]⟩] : List TargetObj).filter
              (matchesRelease ("r"))).length ≠ 1))) :=
  C8_target_objects ("r")
    ⟨[⟨"i1", [(ReleaseLabel, "r")]⟩], [⟨"t1", [(ReleaseLabel, "r")]⟩],
      [⟨"c1", [(ReleaseLabel, "r")]⟩]⟩

/-- C9: every patch produced by patchPodTrafficStatusLabel is a one-element
operation list whose path is /metadata/labels/<traffic-status label>, whose
value is the intended value, and whose op is add iff the traffic-status label
is absent on the pod, replace otherwise. -/
theorem C9_patch_format (pod : Pod) (value : String) :
    (patchPodTrafficStatusLabel pod value).length = 1 ∧
      ∀ o ∈ patchPodTrafficStatusLabel pod value,
        o.path = "/metadata/labels/" ++ PodTrafficStatusLabel ∧
        o.value = value ∧
        (o.op = AddOp ↔ pod.labels.lookup PodTrafficStatusLabel = none) ∧
        (o.op = ReplaceOp ↔ (pod.labels.lookup PodTrafficStatusLabel).isSome = true) := by
  cases hl : pod.labels.lookup PodTrafficStatusLabel with
  | none =>
    refine ⟨by simp [patchPodTrafficStatusLabel], ?_⟩
    intro o ho
    simp [patchPodTrafficStatusLabel, hl] at ho
    rw [ho]
    refine ⟨rfl, rfl, by simp, ?_⟩
    simp [AddOp, ReplaceOp]
  | some v =>
    refine ⟨by simp [patchPodTrafficStatusLabel], ?_⟩
    intro o ho
    simp [patchPodTrafficStatusLabel, hl] at ho
    rw [ho]
    refine ⟨rfl, rfl, ?_, by simp⟩
    simp [AddOp, ReplaceOp]

/-- C9 witness: the patch format at a concrete labelled pod. -/
theorem C9_witness :
    (patchPodTrafficStatusLabel ⟨"p1", [(PodTrafficStatusLabel, Enabled)]⟩ Disabled).length = 1 ∧
      ∀ o ∈ patchPodTrafficStatusLabel ⟨"p1", [(PodTrafficStatusLabel, Enabled)]⟩ Disabled,
        o.path = "/metadata/labels/" ++ PodTrafficStatusLabel ∧
        o.value = Disabled ∧
        (o.op = AddOp ↔
          (⟨"p1", [(PodTrafficStatusLabel, Enabled)]⟩ : Pod).labels.lookup PodTrafficStatusLabel
            = none) ∧
        (o.op = ReplaceOp ↔
          ((⟨"p1", [(PodTrafficStatusLabel, Enabled)]⟩ : Pod).labels.lookup
            PodTrafficStatusLabel).isSome = true) :=
  C9_patch_format ⟨"p1", [(PodTrafficStatusLabel, Enabled)]⟩ Disabled

end Shipper
